import Mathlib

/-!
Shallow embedding of `src/server.py`, a small HTTP JSON backend that stores
equipment quotes in an SQLite database with two tables (`quotes` and
`quote_items`).  JSON values are modelled by an inductive type, the database
by lists of typed rows plus the AUTOINCREMENT counters, and each request
handler by a pure function from the decoded body and the current database
state to the next state and the HTTP response.  Python floats are modelled
by a dedicated type whose finite values are exact rationals and which also
carries the two infinities and NaN, so that `float()` and the `< 0` price
check follow the program, NaN included.
-/

/-- A Python float as `float()` can produce it: a finite value (modelled as
an exact rational, without IEEE rounding or overflow-to-infinity), one of
the two infinities, or NaN. -/
inductive PyFloat where
  | finite (q : ℚ)
  | inf
  | ninf
  | nan
deriving DecidableEq

/-- Negation of a Python float (a sign on NaN is not observable here). -/
def PyFloat.neg : PyFloat → PyFloat
  | .finite q => .finite (-q)
  | .inf => .ninf
  | .ninf => .inf
  | .nan => .nan

/-- IEEE `<` as Python evaluates it: any comparison involving NaN is false. -/
def PyFloat.lt : PyFloat → PyFloat → Bool
  | .nan, _ => false
  | _, .nan => false
  | .ninf, .ninf => false
  | .ninf, _ => true
  | .inf, _ => false
  | .finite _, .ninf => false
  | .finite a, .finite b => decide (a < b)
  | .finite _, .inf => true

/-- IEEE `≥`: false whenever NaN is involved. -/
def PyFloat.ge : PyFloat → PyFloat → Bool
  | .nan, _ => false
  | _, .nan => false
  | .inf, _ => true
  | .ninf, .ninf => true
  | .ninf, _ => false
  | .finite _, .inf => false
  | .finite a, .finite b => decide (b ≤ a)
  | .finite _, .ninf => true

/-- NaN test; NaN is the one float SQLite cannot store (it binds as NULL). -/
def PyFloat.isNan : PyFloat → Bool
  | .nan => true
  | _ => false

/-- What the price check `not (price_value < 0.0)` lets through — note that
NaN passes it, since NaN compares false. -/
def notLtZeroPF (x : PyFloat) : Prop := PyFloat.lt x (PyFloat.finite 0) = false

/-- Genuinely non-negative: `x >= 0.0`, which NaN fails. -/
def nonNegPF (x : PyFloat) : Prop := PyFloat.ge x (PyFloat.finite 0) = true

/-- JSON values as produced by `json.loads`: strings, numbers (ints and
floats together; Python's parser also admits the NaN/Infinity constants,
hence the full float domain), booleans, null, arrays, objects. -/
inductive Value where
  | str (s : String)
  | num (x : PyFloat)
  | bool (b : Bool)
  | null
  | list (xs : List Value)
  | dict (kvs : List (String × Value))

/-- A JSON object body, a key-value association list (a Python dict). -/
abbrev Payload := List (String × Value)

/-- `payload.get(key)`: the value under a key, or null (`None`) if absent. -/
def dictGet (kvs : Payload) (k : String) : Value :=
  match kvs.lookup k with
  | some v => v
  | none => Value.null

/-- The ASCII whitespace characters removed by Python `str.strip()`. -/
def isPySpace (c : Char) : Bool :=
  c == ' ' || c == '\t' || c == '\n' || c == '\r' || c == '\x0b' || c == '\x0c'

/-- Removal of leading whitespace. -/
def stripL (l : List Char) : List Char := l.dropWhile isPySpace

/-- Removal of trailing whitespace. -/
def stripR (l : List Char) : List Char := (l.reverse.dropWhile isPySpace).reverse

/-- Python `str.strip()`: remove leading and trailing whitespace. -/
def pyStrip (s : String) : String := String.mk (stripR (stripL s.data))

/-- One decimal digit. -/
def digitVal (c : Char) : Option Nat :=
  if c.isDigit then some (c.toNat - 48) else none

/-- A run of decimal digits read as a natural number; any non-digit makes the
parse fail.  The empty run reads as 0; callers guarantee at least one digit
overall. -/
def parseNatDigits (l : List Char) : Option Nat :=
  l.foldl (fun acc c =>
    match acc, digitVal c with
    | some n, some d => some (n * 10 + d)
    | _, _ => none) (some 0)

/-- Underscores in a numeric literal must sit between two digits (the
grouping rule of Python numeric strings). -/
def okUnderscores : List Char → Bool
  | c :: '_' :: d :: rest =>
    if c.isDigit && d.isDigit then okUnderscores (d :: rest) else false
  | '_' :: _ => false
  | _ :: rest => okUnderscores rest
  | [] => true

/-- Exponent digits (at least one required). -/
def parseExpDigits (l : List Char) : Option ℤ :=
  if l.isEmpty then none else (parseNatDigits l).map (fun n => (n : ℤ))

/-- The exponent after `e`: an optional sign, then digits. -/
def parseExp : List Char → Option ℤ
  | [] => none
  | c :: rest =>
    if c == '+' then parseExpDigits rest
    else if c == '-' then (parseExpDigits rest).map (fun z => -z)
    else parseExpDigits (c :: rest)

/-- Mantissa: digits with an optional fractional part after one dot, with
at least one digit in total.  Returned as the pair (all digits read as a
natural number, length of the fractional part), so the mantissa's value is
the first component divided by ten to the second. -/
def parseMantissa (l : List Char) : Option (Nat × Nat) :=
  match l.span (fun c => !(c == '.')) with
  | (ip, []) =>
    if ip.isEmpty then none
    else (parseNatDigits ip).map (fun n => (n, 0))
  | (ip, _ :: fp) =>
    if ip.isEmpty && fp.isEmpty then none
    else
      match parseNatDigits (ip ++ fp) with
      | some m => some (m, fp.length)
      | none => none

/-- The rational m / 10^k * 10^z, built with `mkRat` from integer
arithmetic. -/
def ratOfDigits (m k : Nat) (z : ℤ) : ℚ :=
  if 0 ≤ z - (k : ℤ) then mkRat ((m * 10 ^ (z - (k : ℤ)).toNat : Nat) : ℤ) 1
  else mkRat (m : ℤ) (10 ^ ((k : ℤ) - z).toNat)

/-- A numeric float literal: mantissa, optional exponent part, underscores
allowed between digits. -/
def parseNumeric (l : List Char) : Option PyFloat :=
  if okUnderscores l then
    match (l.filter (fun c => !(c == '_'))).span (fun c => !(c == 'e')) with
    | (mant, []) =>
      (parseMantissa mant).map (fun p => PyFloat.finite (ratOfDigits p.1 p.2 0))
    | (mant, _ :: expl) =>
      match parseMantissa mant, parseExp expl with
      | some p, some z => some (PyFloat.finite (ratOfDigits p.1 p.2 z))
      | _, _ => none
  else none

/-- An unsigned float literal (case already lowered): the words `inf`,
`infinity` or `nan`, or a numeric literal. -/
def parseUnsignedFloat (l : List Char) : Option PyFloat :=
  if l == ['i', 'n', 'f'] || l == ['i', 'n', 'f', 'i', 'n', 'i', 't', 'y'] then
    some PyFloat.inf
  else if l == ['n', 'a', 'n'] then some PyFloat.nan
  else parseNumeric l

/-- Python `float(str)`: strip surrounding whitespace, read an optional
sign, then `inf`/`infinity`/`nan` (case-insensitive) or a decimal literal
with optional fraction, optional exponent and underscores between digits.
Finite results are exact rationals: IEEE rounding, overflow to infinity of
huge literals and non-ASCII digits are outside the model. -/
def parseFloatStr (s : String) : Option PyFloat :=
  match ((pyStrip s).data.map Char.toLower) with
  | [] => none
  | c :: rest =>
    if c == '+' then parseUnsignedFloat rest
    else if c == '-' then (parseUnsignedFloat rest).map PyFloat.neg
    else parseUnsignedFloat (c :: rest)

/-- Python `float(value)`: numbers pass through, booleans coerce to 1/0,
strings go through `float(str)`, anything else raises TypeError, modelled
as `none`. -/
def pyFloat : Value → Option PyFloat
  | .num x => some x
  | .bool b => some (.finite (if b then 1 else 0))
  | .str s => parseFloatStr s
  | _ => none

/-- The free-text rule applied by `do_POST` to each required field:
the value must be a string whose `strip()` is non-empty; the value kept is
the stripped string. -/
def validateText : Value → Option String
  | .str s => if pyStrip s = "" then none else some (pyStrip s)
  | _ => none

/-- The price rule applied by `do_POST` to each price field: `float(value)`
must succeed and the code's check is `price_value < 0` — so NaN, which
compares false against everything, passes the check. -/
def validatePrice (v : Value) : Option PyFloat :=
  match pyFloat v with
  | none => none
  | some x => if PyFloat.lt x (PyFloat.finite 0) then none else some x

/-- `required_fields` from `do_POST`, in source order. -/
def required_fields : List String :=
  ["engine_category", "engine_model", "radiator_type", "generator_category",
   "generator_power", "control_system", "base_type", "unit_color"]

/-- `price_fields` from `do_POST`, in source order. -/
def price_fields : List String :=
  ["price_engine_combo", "price_generator_combo", "price_radiator",
   "price_control", "price_base", "price_color"]

/-- The flat `do_POST` validation loop: visit the fields in order, stop at
the first failure with an error naming that field, otherwise collect the
validated values in field order. -/
def runFields {α : Type} (val : Value → Option α) (p : Payload) :
    List String → Except String (List α)
  | [] => .ok []
  | f :: fs =>
    match val (dictGet p f) with
    | none => .error ("invalid_" ++ f)
    | some x =>
      match runFields val p fs with
      | .error e => .error e
      | .ok xs => .ok (x :: xs)

/-- A row of the `quotes` table. -/
structure QuoteRow where
  id : Nat
  engine_category : String
  engine_model : String
  radiator_type : String
  generator_category : String
  generator_power : String
  control_system : String
  base_type : String
  unit_color : String
  price_engine_combo : PyFloat
  price_generator_combo : PyFloat
  price_radiator : PyFloat
  price_control : PyFloat
  price_base : PyFloat
  price_color : PyFloat
  created_at : String
deriving DecidableEq

/-- A row of the `quote_items` table; the `extra` column is nullable. -/
structure ItemRow where
  id : Nat
  quote_id : Nat
  «section» : String
  name : String
  extra : Option String
  price : PyFloat
deriving DecidableEq

/-- The SQLite database: both tables plus their AUTOINCREMENT counters. -/
structure DB where
  quotes : List QuoteRow
  quote_items : List ItemRow
  nextQuoteId : Nat
  nextItemId : Nat
deriving DecidableEq

/-- The freshly created database (`init_db`): empty tables, ids start at 1. -/
def initDB : DB := { quotes := [], quote_items := [], nextQuoteId := 1, nextItemId := 1 }

/-- The dict passed to `insert_quote` by either POST path: eight text
columns (engine_model and generator_power arrive as item extras, so they are
optional at this point), six prices, and the raw item dicts (the flat path
passes no items). -/
structure QuoteData where
  engine_category : String
  engine_model : Option String
  radiator_type : String
  generator_category : String
  generator_power : Option String
  control_system : String
  base_type : String
  unit_color : String
  price_engine_combo : PyFloat
  price_generator_combo : PyFloat
  price_radiator : PyFloat
  price_control : PyFloat
  price_base : PyFloat
  price_color : PyFloat
  items : List Value

/-- Binding one submitted item dict into the `quote_items` INSERT:
`section`, `name` and `price` must be present with non-null values of the
column's type (they are NOT NULL columns), while `extra` may be null; any
other shape makes the insert raise.  A NaN price binds as NULL in SQLite
and so also violates the NOT NULL constraint. -/
def itemRow (qid iid : Nat) : Value → Option ItemRow
  | .dict kvs =>
    match kvs.lookup "section", kvs.lookup "name", kvs.lookup "price" with
    | some (.str sec), some (.str nm), some (.num pr) =>
      if pr.isNan then none
      else
        match dictGet kvs "extra" with
        | .null => some ⟨iid, qid, sec, nm, none, pr⟩
        | .str ex => some ⟨iid, qid, sec, nm, some ex, pr⟩
        | _ => none
    | _, _, _ => none
  | _ => none

/-- `executemany` over the item dicts, assigning consecutive item ids; the
whole batch fails if any single item fails to bind. -/
def itemRows (qid : Nat) : Nat → List Value → Option (List ItemRow)
  | _, [] => some []
  | iid, v :: vs =>
    match itemRow qid iid v with
    | none => none
    | some r =>
      match itemRows qid (iid + 1) vs with
      | none => none
      | some rs => some (r :: rs)

/-- The quotes row bound by the INSERT of `insert_quote`. -/
def mkQuoteRow (created_at : String) (d : QuoteData) (em gp : String) (qid : Nat) : QuoteRow :=
  { id := qid,
    engine_category := d.engine_category, engine_model := em,
    radiator_type := d.radiator_type,
    generator_category := d.generator_category, generator_power := gp,
    control_system := d.control_system, base_type := d.base_type,
    unit_color := d.unit_color,
    price_engine_combo := d.price_engine_combo,
    price_generator_combo := d.price_generator_combo,
    price_radiator := d.price_radiator,
    price_control := d.price_control,
    price_base := d.price_base, price_color := d.price_color,
    created_at := created_at }

/-- `insert_quote`: inside one transaction (the sqlite3 connection context
manager, one `commit()` at the end) insert the quotes row and then every
item row.  Any failure raises, the transaction rolls back, and no new
database state is produced.  A null `engine_model` or `generator_power`
would violate the quotes table's NOT NULL constraints, and so would a NaN
price, which SQLite binds as NULL. -/
def insert_quote (created_at : String) (d : QuoteData) (db : DB) : Except String DB :=
  match d.engine_model, d.generator_power with
  | some em, some gp =>
    if d.price_engine_combo.isNan || d.price_generator_combo.isNan ||
        d.price_radiator.isNan || d.price_control.isNan ||
        d.price_base.isNan || d.price_color.isNan then .error "integrity_error"
    else
      match itemRows db.nextQuoteId db.nextItemId d.items with
      | none => .error "integrity_error"
      | some irs =>
        .ok { quotes := db.quotes ++ [mkQuoteRow created_at d em gp db.nextQuoteId],
              quote_items := db.quote_items ++ irs,
              nextQuoteId := db.nextQuoteId + 1,
              nextItemId := db.nextItemId + irs.length }
  | _, _ => .error "integrity_error"

/-- One validated member of an item group, as accumulated by `parse_items`:
stripped name, stripped extra (when the group has an extra key), price. -/
structure ParsedItem where
  name : String
  extra : Option String
  price : PyFloat
deriving DecidableEq

/-- One pass of the loop body of `parse_items`: the item must be a dict, its
name (and, when the group has an extra key, its extra) must be a string with
non-empty strip, and `float(price)` must succeed and be non-negative. -/
def parse_item (name_key : String) (extra_key : Option String) : Value → Option ParsedItem
  | .dict kvs =>
    match validateText (dictGet kvs name_key) with
    | none => none
    | some nm =>
      match extra_key with
      | none =>
        match validatePrice (dictGet kvs "price") with
        | none => none
        | some pr => some ⟨nm, none, pr⟩
      | some ek =>
        match validateText (dictGet kvs ek) with
        | none => none
        | some ex =>
          match validatePrice (dictGet kvs "price") with
          | none => none
          | some pr => some ⟨nm, some ex, pr⟩
  | _ => none

/-- The loop of `parse_items` over the submitted items, in original order,
stopping at the first failing item. -/
def parseItemsGo (nk : String) (ek : Option String) : List Value → Option (List ParsedItem)
  | [] => some []
  | v :: vs =>
    match parse_item nk ek v with
    | none => none
    | some i =>
      match parseItemsGo nk ek vs with
      | none => none
      | some l => some (i :: l)

/-- `parse_items`: the group must be a non-empty JSON array whose members all
validate; every failure is the single error `invalid_items` (modelled as
`none`), which the handler renames per group. -/
def parse_items (nk : String) (ek : Option String) : Value → Option (List ParsedItem)
  | .list items => if items.isEmpty then none else parseItemsGo nk ek items
  | _ => none

/-- The encoding of an `extra` value into the item dict handed to
`insert_quote`. -/
def encExtra : Option String → Value
  | some s => .str s
  | none => .null

/-- One entry of the `items` list built by the grouped `do_POST` path. -/
def encodeItem (sec : String) (ex : Option String) (i : ParsedItem) : Value :=
  .dict [("section", .str sec), ("name", .str i.name),
         ("extra", encExtra ex), ("price", .num i.price)]

/-- One `for` loop of the grouped path: tag every item of a group with its
section; groups without an extra key store `extra = None` explicitly. -/
def encodeGroup (sec : String) (keepExtra : Bool) (l : List ParsedItem) : List Value :=
  l.map (fun i => encodeItem sec (if keepExtra then i.extra else none) i)

/-- The `data` dict built by the grouped path: the summary columns come from
the first item of each group, the `items` list is the concatenation of all
six groups in source order. -/
def mkGroupedData (e g r c b col : List ParsedItem) : Except String QuoteData :=
  match e, g, r, c, b, col with
  | fe :: _, fg :: _, fr :: _, fc :: _, fb :: _, fcol :: _ =>
    .ok { engine_category := fe.name, engine_model := fe.extra,
          radiator_type := fr.name, generator_category := fg.name,
          generator_power := fg.extra, control_system := fc.name,
          base_type := fb.name, unit_color := fcol.name,
          price_engine_combo := fe.price, price_generator_combo := fg.price,
          price_radiator := fr.price, price_control := fc.price,
          price_base := fb.price, price_color := fcol.price,
          items := encodeGroup "engine" true e ++ encodeGroup "generator" true g ++
                   encodeGroup "radiator" false r ++ encodeGroup "control" false c ++
                   encodeGroup "base" false b ++ encodeGroup "color" false col }
  | _, _, _, _, _, _ => .error "invalid_rows"

/-- The grouped branch of `do_POST` (taken when the payload has an
`engine_items` key): parse the six groups in source order, renaming the
parse error per group, then build the `data` dict. -/
def handleGrouped (p : Payload) : Except String QuoteData :=
  match parse_items "engine_category" (some "engine_model") (dictGet p "engine_items") with
  | none => .error "invalid_engine_items"
  | some e =>
    match parse_items "generator_category" (some "generator_power") (dictGet p "generator_items") with
    | none => .error "invalid_generator_items"
    | some g =>
      match parse_items "radiator_type" none (dictGet p "radiator_items") with
      | none => .error "invalid_radiator_items"
      | some r =>
        match parse_items "control_system" none (dictGet p "control_items") with
        | none => .error "invalid_control_items"
        | some c =>
          match parse_items "base_type" none (dictGet p "base_items") with
          | none => .error "invalid_base_items"
          | some b =>
            match parse_items "unit_color" none (dictGet p "color_items") with
            | none => .error "invalid_color_items"
            | some col => mkGroupedData e g r c b col

/-- Assembling the flat path's `data` dict from the validated text and price
values, which arrive in field order (eight texts, six prices). -/
def mkFlatData : List String → List PyFloat → Option QuoteData
  | [ec, em, rt, gc, gp, cs, bt, uc], [q1, q2, q3, q4, q5, q6] =>
    some { engine_category := ec, engine_model := some em, radiator_type := rt,
           generator_category := gc, generator_power := some gp,
           control_system := cs, base_type := bt, unit_color := uc,
           price_engine_combo := q1, price_generator_combo := q2,
           price_radiator := q3, price_control := q4, price_base := q5,
           price_color := q6, items := [] }
  | _, _ => none

/-- The flat branch of `do_POST`: validate the eight required fields then
the six price fields, each loop failing fast with `invalid_<field>`. -/
def handleFlat (p : Payload) : Except String QuoteData :=
  match runFields validateText p required_fields with
  | .error e => .error e
  | .ok ts =>
    match runFields validatePrice p price_fields with
    | .error e => .error e
    | .ok qs =>
      match mkFlatData ts qs with
      | some d => .ok d
      | none => .error "invalid_rows"

/-- An HTTP response of the quotes endpoint: 201 `{"ok": true}` on success,
a status code with a JSON error string, or `exn`, an unhandled Python
exception escaping the handler (no JSON error payload is produced). -/
inductive Resp where
  | ok (status : Nat)
  | err (status : Nat) (code : String)
  | exn
deriving DecidableEq

/-- `do_POST` on `/api/quotes`: `body = none` models a request whose body is
not valid JSON; otherwise the grouped branch is taken exactly when the
payload has an `engine_items` key.  The pair returned is the database state
after the request and the response.  An exception escaping `insert_quote`
(its error case) leaves the state unchanged — the transaction has rolled
back — and surfaces no JSON error code: the response is `Resp.exn`. -/
def do_POST (body : Option Payload) (created_at : String) (db : DB) : DB × Resp :=
  match body with
  | none => (db, .err 400 "invalid_json")
  | some payload =>
    if (payload.lookup "engine_items").isSome then
      match handleGrouped payload with
      | .error e => (db, .err 400 e)
      | .ok d =>
        match insert_quote created_at d db with
        | .error _ => (db, .exn)
        | .ok db2 => (db2, .ok 201)
    else
      match handleFlat payload with
      | .error e => (db, .err 400 e)
      | .ok d =>
        match insert_quote created_at d db with
        | .error _ => (db, .exn)
        | .ok db2 => (db2, .ok 201)

/-- Insertion into a list already sorted by id descending. -/
def insertByIdDesc (r : QuoteRow) : List QuoteRow → List QuoteRow
  | [] => [r]
  | x :: xs => if x.id ≤ r.id then r :: x :: xs else x :: insertByIdDesc r xs

/-- Sorting by id descending, modelling `ORDER BY id DESC`. -/
def sortByIdDesc : List QuoteRow → List QuoteRow
  | [] => []
  | x :: xs => insertByIdDesc x (sortByIdDesc xs)

/-- `list_quotes`: `SELECT ... FROM quotes ORDER BY id DESC`. -/
def list_quotes (db : DB) : List QuoteRow := sortByIdDesc db.quotes

/-- One column of `list_options`:
`SELECT DISTINCT col FROM quotes WHERE col IS NOT NULL AND col != ''`.
The columns are NOT NULL, so only the non-empty filter is visible in the
typed model. -/
def distinctVals (db : DB) (sel : QuoteRow → String) : List String :=
  ((db.quotes.map sel).filter (fun s => s ≠ "")).dedup

/-- The eight columns `list_options` reports, in source order. -/
def optionFields : List (String × (QuoteRow → String)) :=
  [("engine_category", fun q => q.engine_category),
   ("engine_model", fun q => q.engine_model),
   ("radiator_type", fun q => q.radiator_type),
   ("generator_category", fun q => q.generator_category),
   ("generator_power", fun q => q.generator_power),
   ("control_system", fun q => q.control_system),
   ("base_type", fun q => q.base_type),
   ("unit_color", fun q => q.unit_color)]

/-- `list_options`: the distinct non-empty values of each of the eight
columns. -/
def list_options (db : DB) : List (String × List String) :=
  optionFields.map (fun e => (e.1, distinctVals db e.2))

/-- Database states reachable through the API from a fresh database.
GET requests do not write, so only POST requests appear. -/
inductive Reachable : DB → Prop where
  | init : Reachable initDB
  | post (body : Option Payload) (created_at : String) (db : DB) :
      Reachable db → Reachable (do_POST body created_at db).1

/-- A string that is its own strip and non-empty: the result shape of the
free-text rule. -/
def trimmedNonempty (s : String) : Prop := pyStrip s = s ∧ s ≠ ""

/-- A nullable text column value that satisfies the rules when present. -/
def validOptText : Option String → Prop
  | none => True
  | some s => trimmedNonempty s

/-- A text value that is present and satisfies the rules. -/
def validOptTextSome : Option String → Prop
  | none => False
  | some s => trimmedNonempty s

/-- A persisted quotes row whose writable columns satisfy the validation
rules: non-empty trimmed texts and non-negative prices. -/
def validQuote (q : QuoteRow) : Prop :=
  trimmedNonempty q.engine_category ∧ trimmedNonempty q.engine_model ∧
  trimmedNonempty q.radiator_type ∧ trimmedNonempty q.generator_category ∧
  trimmedNonempty q.generator_power ∧ trimmedNonempty q.control_system ∧
  trimmedNonempty q.base_type ∧ trimmedNonempty q.unit_color ∧
  nonNegPF q.price_engine_combo ∧ nonNegPF q.price_generator_combo ∧
  nonNegPF q.price_radiator ∧ nonNegPF q.price_control ∧
  nonNegPF q.price_base ∧ nonNegPF q.price_color

/-- A persisted quote_items row that satisfies the validation rules. -/
def validItem (it : ItemRow) : Prop :=
  trimmedNonempty it.«section» ∧ trimmedNonempty it.name ∧
  validOptText it.extra ∧ nonNegPF it.price

/-- An item dict that only ever binds to a valid row. -/
def validItemVal (v : Value) : Prop :=
  ∀ qid iid r, itemRow qid iid v = some r → validItem r

/-- An item dict that always binds (the insert cannot raise on it). -/
def insertableVal (v : Value) : Prop :=
  ∀ qid iid, (itemRow qid iid v).isSome

/-- A `data` dict that satisfies every validation rule, as both handler
branches produce it.  Prices carry only what the check guarantees: they are
not less than zero, which NaN also satisfies. -/
def validData (d : QuoteData) : Prop :=
  trimmedNonempty d.engine_category ∧ validOptTextSome d.engine_model ∧
  trimmedNonempty d.radiator_type ∧ trimmedNonempty d.generator_category ∧
  validOptTextSome d.generator_power ∧ trimmedNonempty d.control_system ∧
  trimmedNonempty d.base_type ∧ trimmedNonempty d.unit_color ∧
  notLtZeroPF d.price_engine_combo ∧ notLtZeroPF d.price_generator_combo ∧
  notLtZeroPF d.price_radiator ∧ notLtZeroPF d.price_control ∧
  notLtZeroPF d.price_base ∧ notLtZeroPF d.price_color ∧
  (∀ v ∈ d.items, validItemVal v)

/-- Invariant of claim C2: every persisted row satisfies the rules. -/
def dbInv (db : DB) : Prop :=
  (∀ q ∈ db.quotes, validQuote q) ∧ (∀ it ∈ db.quote_items, validItem it)

/-- Referential integrity: every item references an existing quote. -/
def refIntegrity (db : DB) : Prop :=
  ∀ it ∈ db.quote_items, ∃ q ∈ db.quotes, q.id = it.quote_id

/-- The first field of the flat path, in schema order (the eight text
columns then the six price columns, exactly as the two loops of `do_POST`
visit them), whose submitted value fails its rule. -/
def firstFail (p : Payload) : Option String :=
  (required_fields.find? (fun f => (validateText (dictGet p f)).isNone)).or
    (price_fields.find? (fun f => (validatePrice (dictGet p f)).isNone))

/-- The error string of a response, if it is an error response. -/
def respErr : Resp → Option String
  | .ok _ => none
  | .err _ c => some c
  | .exn => none

/-- The six per-group error codes of the grouped path. -/
def groupErrs : List String :=
  ["invalid_engine_items", "invalid_generator_items", "invalid_radiator_items",
   "invalid_control_items", "invalid_base_items", "invalid_color_items"]

/-- Every error code `do_POST` can actually surface. -/
def allowedErrs : List String :=
  "invalid_json" ::
    (((required_fields ++ price_fields).map (fun f => "invalid_" ++ f)) ++ groupErrs)

/-- Modelled from the spec: the error-code vocabulary section 6 promises,
namely the five fixed codes plus `invalid_<field>` where the field ranges
over the writable columns (read generously: also the six item-group keys). -/
def claimErrs : List String :=
  ["invalid_rows", "readonly", "table_not_found", "integrity_error", "not_found"] ++
  ((required_fields ++ price_fields ++
    ["engine_items", "generator_items", "radiator_items", "control_items",
     "base_items", "color_items"]).map (fun f => "invalid_" ++ f))

/-- The content of a quote_items row without its surrogate ids. -/
def itemKey (r : ItemRow) : String × String × Option String × PyFloat :=
  (r.«section», r.name, r.extra, r.price)

/-- A well-formed flat submission used as a concrete test vehicle. -/
def flatP (tag : String) : Payload :=
  [("engine_category", .str tag), ("engine_model", .str "m"),
   ("radiator_type", .str "r"), ("generator_category", .str "g"),
   ("generator_power", .str "p"), ("control_system", .str "c"),
   ("base_type", .str "b"), ("unit_color", .str "u"),
   ("price_engine_combo", .num (.finite 1)), ("price_generator_combo", .num (.finite 1)),
   ("price_radiator", .num (.finite 1)), ("price_control", .num (.finite 1)),
   ("price_base", .num (.finite 1)), ("price_color", .num (.finite 1))]

/-- The database after one valid flat submission. -/
def dbA : DB := (do_POST (some (flatP "A")) "t1" initDB).1

/-- The database after a second, identical submission: two rows that agree
on every content column and differ only in their surrogate id. -/
def dbAA : DB := (do_POST (some (flatP "A")) "t2" dbA).1

/-- A `data` dict whose single item dict cannot bind (null item), making the
item insert of `insert_quote` fail. -/
def badData : QuoteData :=
  { engine_category := "e", engine_model := some "m", radiator_type := "r",
    generator_category := "g", generator_power := some "p",
    control_system := "c", base_type := "b", unit_color := "u",
    price_engine_combo := .finite 1, price_generator_combo := .finite 1,
    price_radiator := .finite 1, price_control := .finite 1,
    price_base := .finite 1, price_color := .finite 1,
    items := [Value.null] }

/-- A well-formed grouped submission used as a concrete test vehicle: two
engine items, one item in every other group. -/
def groupedP : Payload :=
  [("engine_items", Value.list [
      Value.dict [("engine_category", Value.str "EC1"),
                  ("engine_model", Value.str "EM1"), ("price", Value.num (PyFloat.finite 10))],
      Value.dict [("engine_category", Value.str "EC2"),
                  ("engine_model", Value.str "EM2"), ("price", Value.num (PyFloat.finite 20))]]),
   ("generator_items", Value.list [
      Value.dict [("generator_category", Value.str "GC"),
                  ("generator_power", Value.str "GP"), ("price", Value.num (PyFloat.finite 5))]]),
   ("radiator_items", Value.list [
      Value.dict [("radiator_type", Value.str "RT"), ("price", Value.num (PyFloat.finite 1))]]),
   ("control_items", Value.list [
      Value.dict [("control_system", Value.str "CS"), ("price", Value.num (PyFloat.finite 2))]]),
   ("base_items", Value.list [
      Value.dict [("base_type", Value.str "BT"), ("price", Value.num (PyFloat.finite 3))]]),
   ("color_items", Value.list [
      Value.dict [("unit_color", Value.str "UC"), ("price", Value.num (PyFloat.finite 4))]])]

/-! ### Lemmas about stripping and the field validators -/

theorem dropWhile_idem {α : Type} (p : α → Bool) (l : List α) :
    (l.dropWhile p).dropWhile p = l.dropWhile p := by
  induction l with
  | nil => rfl
  | cons a l ih =>
    cases hp : p a with
    | true => simp [List.dropWhile_cons, hp, ih]
    | false => simp [List.dropWhile_cons, hp]

theorem length_dropWhile_le {α : Type} (p : α → Bool) (l : List α) :
    (l.dropWhile p).length ≤ l.length := by
  induction l with
  | nil => simp
  | cons a l ih =>
    rw [List.dropWhile_cons]
    by_cases hp : p a = true
    · rw [if_pos hp]; exact Nat.le_succ_of_le ih
    · rw [if_neg hp]

theorem stripL_idem (l : List Char) : stripL (stripL l) = stripL l :=
  dropWhile_idem isPySpace l

theorem stripR_idem (l : List Char) : stripR (stripR l) = stripR l := by
  unfold stripR
  rw [List.reverse_reverse, dropWhile_idem]

theorem stripR_append (l : List Char) :
    l = stripR l ++ (l.reverse.takeWhile isPySpace).reverse := by
  unfold stripR
  rw [← List.reverse_append, List.takeWhile_append_dropWhile, List.reverse_reverse]

theorem stripL_head (c : Char) (t : List Char) (h : stripL (c :: t) = c :: t) :
    isPySpace c = false := by
  cases hp : isPySpace c with
  | false => rfl
  | true =>
    unfold stripL at h
    rw [List.dropWhile_cons, if_pos hp] at h
    have hl : (List.dropWhile isPySpace t).length ≤ t.length :=
      length_dropWhile_le isPySpace t
    rw [h] at hl
    simp at hl

theorem stripL_stripR (l : List Char) (h : stripL l = l) :
    stripL (stripR l) = stripR l := by
  cases hs : stripR l with
  | nil => rfl
  | cons c t =>
    have hl : l = stripR l ++ (l.reverse.takeWhile isPySpace).reverse :=
      stripR_append l
    generalize hR : (l.reverse.takeWhile isPySpace).reverse = R at hl
    rw [hs] at hl
    rw [List.cons_append] at hl
    rw [hl] at h
    have hc : isPySpace c = false := stripL_head c (t ++ R) h
    unfold stripL
    rw [List.dropWhile_cons, if_neg (by simp [hc])]

theorem pyStrip_idem (s : String) : pyStrip (pyStrip s) = pyStrip s := by
  show String.mk (stripR (stripL (stripR (stripL s.data)))) = String.mk (stripR (stripL s.data))
  rw [stripL_stripR _ (stripL_idem s.data), stripR_idem]

theorem validateText_some (v : Value) (t : String) (h : validateText v = some t) :
    trimmedNonempty t := by
  cases v with
  | str s =>
    by_cases he : pyStrip s = ""
    · simp [validateText, if_pos he] at h
    · simp only [validateText, if_neg he] at h
      cases h
      exact ⟨pyStrip_idem s, he⟩
  | num q => simp [validateText] at h
  | bool b => simp [validateText] at h
  | null => simp [validateText] at h
  | list xs => simp [validateText] at h
  | dict kvs => simp [validateText] at h

theorem validatePrice_some (v : Value) (x : PyFloat) (h : validatePrice v = some x) :
    notLtZeroPF x := by
  unfold validatePrice at h
  cases hf : pyFloat v with
  | none => rw [hf] at h; cases h
  | some r =>
    rw [hf] at h
    change (if PyFloat.lt r (PyFloat.finite 0) = true then none else some r) = some x at h
    cases hb : PyFloat.lt r (PyFloat.finite 0) with
    | true => rw [if_pos hb] at h; cases h
    | false =>
      rw [if_neg (by simp [hb])] at h
      cases h
      exact hb

theorem PyFloat.ge_zero_of_not_lt (x : PyFloat) (hn : x.isNan = false)
    (h : notLtZeroPF x) : nonNegPF x := by
  cases x with
  | finite a =>
    unfold notLtZeroPF at h
    unfold nonNegPF
    simp [PyFloat.lt] at h
    simp [PyFloat.ge]
    exact h
  | inf => rfl
  | ninf => cases h
  | nan => cases hn

/-! ### Lemmas about the flat validation loop -/

theorem runFields_error_of_find {α : Type} (val : Value → Option α) (p : Payload)
    (fs : List String) (f : String)
    (h : fs.find? (fun g => (val (dictGet p g)).isNone) = some f) :
    runFields val p fs = .error ("invalid_" ++ f) := by
  induction fs with
  | nil => cases h
  | cons g gs ih =>
    rw [List.find?_cons] at h
    cases hv : val (dictGet p g) with
    | none =>
      rw [hv] at h
      simp at h
      subst h
      simp [runFields, hv]
    | some x =>
      rw [hv] at h
      simp at h
      simp [runFields, hv, ih h]

theorem runFields_ok_of_find_none {α : Type} (val : Value → Option α) (p : Payload)
    (fs : List String)
    (h : fs.find? (fun g => (val (dictGet p g)).isNone) = none) :
    ∃ xs, runFields val p fs = .ok xs ∧ xs.length = fs.length ∧
      ∀ x ∈ xs, ∃ g ∈ fs, val (dictGet p g) = some x := by
  induction fs with
  | nil => exact ⟨[], rfl, rfl, by simp⟩
  | cons g gs ih =>
    rw [List.find?_cons] at h
    cases hv : val (dictGet p g) with
    | none => rw [hv] at h; simp at h
    | some x =>
      rw [hv] at h
      change List.find? (fun g => (val (dictGet p g)).isNone) gs = none at h
      obtain ⟨xs, hxs, hlen, hmem⟩ := ih h
      refine ⟨x :: xs, ?_, by simp [hlen], ?_⟩
      · simp [runFields, hv, hxs]
      · intro y hy
        rcases List.mem_cons.mp hy with rfl | hy
        · exact ⟨g, by simp, hv⟩
        · obtain ⟨g', hg', hval⟩ := hmem y hy
          exact ⟨g', by simp [hg'], hval⟩

theorem runFields_error_mem {α : Type} (val : Value → Option α) (p : Payload)
    (fs : List String) (e : String)
    (h : runFields val p fs = .error e) :
    ∃ f ∈ fs, e = "invalid_" ++ f ∧ val (dictGet p f) = none := by
  induction fs with
  | nil => cases h
  | cons g gs ih =>
    unfold runFields at h
    cases hv : val (dictGet p g) with
    | none =>
      rw [hv] at h
      cases h
      exact ⟨g, by simp, rfl, hv⟩
    | some x =>
      rw [hv] at h
      cases hr : runFields val p gs with
      | error e' =>
        rw [hr] at h
        cases h
        obtain ⟨f, hf, he, hval⟩ := ih hr
        exact ⟨f, by simp [hf], he, hval⟩
      | ok xs => rw [hr] at h; cases h

theorem runFields_ok_forall {α : Type} (val : Value → Option α) (p : Payload)
    (fs : List String) (xs : List α)
    (h : runFields val p fs = .ok xs) :
    xs.length = fs.length ∧ ∀ x ∈ xs, ∃ g ∈ fs, val (dictGet p g) = some x := by
  induction fs generalizing xs with
  | nil => cases h; exact ⟨rfl, by simp⟩
  | cons g gs ih =>
    unfold runFields at h
    cases hv : val (dictGet p g) with
    | none => rw [hv] at h; cases h
    | some x =>
      rw [hv] at h
      cases hr : runFields val p gs with
      | error e' => rw [hr] at h; cases h
      | ok ys =>
        rw [hr] at h
        cases h
        obtain ⟨hlen, hmem⟩ := ih ys hr
        refine ⟨by simp [hlen], ?_⟩
        intro y hy
        rcases List.mem_cons.mp hy with rfl | hy
        · exact ⟨g, by simp, hv⟩
        · obtain ⟨g', hg', hval⟩ := hmem y hy
          exact ⟨g', by simp [hg'], hval⟩

/-! ### Lemmas about the grouped item parsing -/

theorem parse_item_some_none (nk : String) (v : Value) (i : ParsedItem)
    (h : parse_item nk none v = some i) :
    trimmedNonempty i.name ∧ i.extra = none ∧ notLtZeroPF i.price := by
  cases v with
  | dict kvs =>
    change (match validateText (dictGet kvs nk) with
      | none => none
      | some nm =>
        match validatePrice (dictGet kvs "price") with
        | none => none
        | some pr => some ⟨nm, none, pr⟩) = some i at h
    cases hn : validateText (dictGet kvs nk) with
    | none => rw [hn] at h; cases h
    | some nm =>
      rw [hn] at h
      change (match validatePrice (dictGet kvs "price") with
        | none => none
        | some pr => some ⟨nm, none, pr⟩) = some i at h
      cases hp : validatePrice (dictGet kvs "price") with
      | none => rw [hp] at h; cases h
      | some pr =>
        rw [hp] at h
        cases h
        exact ⟨validateText_some _ _ hn, rfl, validatePrice_some _ _ hp⟩
  | str s => cases h
  | num q => cases h
  | bool b => cases h
  | null => cases h
  | list xs => cases h

theorem parse_item_some_some (nk ek : String) (v : Value) (i : ParsedItem)
    (h : parse_item nk (some ek) v = some i) :
    trimmedNonempty i.name ∧ (∃ s, i.extra = some s ∧ trimmedNonempty s) ∧
      notLtZeroPF i.price := by
  cases v with
  | dict kvs =>
    change (match validateText (dictGet kvs nk) with
      | none => none
      | some nm =>
        match validateText (dictGet kvs ek) with
        | none => none
        | some ex =>
          match validatePrice (dictGet kvs "price") with
          | none => none
          | some pr => some ⟨nm, some ex, pr⟩) = some i at h
    cases hn : validateText (dictGet kvs nk) with
    | none => rw [hn] at h; cases h
    | some nm =>
      rw [hn] at h
      change (match validateText (dictGet kvs ek) with
        | none => none
        | some ex =>
          match validatePrice (dictGet kvs "price") with
          | none => none
          | some pr => some ⟨nm, some ex, pr⟩) = some i at h
      cases he : validateText (dictGet kvs ek) with
      | none => rw [he] at h; cases h
      | some ex =>
        rw [he] at h
        change (match validatePrice (dictGet kvs "price") with
          | none => none
          | some pr => some ⟨nm, some ex, pr⟩) = some i at h
        cases hp : validatePrice (dictGet kvs "price") with
        | none => rw [hp] at h; cases h
        | some pr =>
          rw [hp] at h
          cases h
          exact ⟨validateText_some _ _ hn, ⟨ex, rfl, validateText_some _ _ he⟩,
            validatePrice_some _ _ hp⟩
  | str s => cases h
  | num q => cases h
  | bool b => cases h
  | null => cases h
  | list xs => cases h

theorem parseItemsGo_some (nk : String) (ek : Option String) (vs : List Value)
    (l : List ParsedItem) (h : parseItemsGo nk ek vs = some l) :
    l.length = vs.length ∧ ∀ i ∈ l, ∃ v ∈ vs, parse_item nk ek v = some i := by
  induction vs generalizing l with
  | nil => cases h; exact ⟨rfl, by simp⟩
  | cons v vs ih =>
    unfold parseItemsGo at h
    cases hv : parse_item nk ek v with
    | none => rw [hv] at h; cases h
    | some i =>
      rw [hv] at h
      cases hr : parseItemsGo nk ek vs with
      | none => rw [hr] at h; cases h
      | some l' =>
        rw [hr] at h
        cases h
        obtain ⟨hlen, hmem⟩ := ih l' hr
        refine ⟨by simp [hlen], ?_⟩
        intro j hj
        rcases List.mem_cons.mp hj with rfl | hj
        · exact ⟨v, by simp, hv⟩
        · obtain ⟨u, hu, hp⟩ := hmem j hj
          exact ⟨u, by simp [hu], hp⟩

theorem parseItemsGo_first_fail (nk : String) (ek : Option String)
    (vs1 : List Value) (v : Value) (vs2 : List Value)
    (hok : ∀ u ∈ vs1, (parse_item nk ek u).isSome)
    (hfail : parse_item nk ek v = none) :
    parseItemsGo nk ek (vs1 ++ v :: vs2) = none := by
  induction vs1 with
  | nil => simp [parseItemsGo, hfail]
  | cons u us ih =>
    obtain ⟨i, hi⟩ := Option.isSome_iff_exists.mp (hok u (by simp))
    rw [List.cons_append]
    unfold parseItemsGo
    rw [hi, ih (fun a ha => hok a (by simp [ha]))]

theorem parse_items_some (nk : String) (ek : Option String) (v : Value)
    (l : List ParsedItem) (h : parse_items nk ek v = some l) :
    l ≠ [] ∧ ∀ i ∈ l, ∃ u, parse_item nk ek u = some i := by
  cases v with
  | list items =>
    change (if items.isEmpty = true then none else parseItemsGo nk ek items) = some l at h
    by_cases he : items.isEmpty = true
    · rw [if_pos he] at h; cases h
    · rw [if_neg he] at h
      obtain ⟨hlen, hmem⟩ := parseItemsGo_some nk ek items l h
      constructor
      · intro hnil
        subst hnil
        simp at hlen
        exact he (List.isEmpty_iff_length_eq_zero.mpr hlen.symm)
      · intro i hi
        obtain ⟨u, _, hp⟩ := hmem i hi
        exact ⟨u, hp⟩
  | str s => cases h
  | num q => cases h
  | bool b => cases h
  | null => cases h
  | dict kvs => cases h

theorem parse_items_first_fail (nk : String) (ek : Option String)
    (vs1 : List Value) (v : Value) (vs2 : List Value)
    (hok : ∀ u ∈ vs1, (parse_item nk ek u).isSome)
    (hfail : parse_item nk ek v = none) :
    parse_items nk ek (Value.list (vs1 ++ v :: vs2)) = none := by
  show (if (vs1 ++ v :: vs2).isEmpty = true then none
    else parseItemsGo nk ek (vs1 ++ v :: vs2)) = none
  rw [if_neg (by simp)]
  exact parseItemsGo_first_fail nk ek vs1 v vs2 hok hfail

/-! ### Lemmas about item binding and the batched item insert -/

theorem itemRow_encodeItem (qid iid : Nat) (sec : String) (ex : Option String)
    (i : ParsedItem) :
    itemRow qid iid (encodeItem sec ex i) =
      if i.price.isNan then none
      else some ⟨iid, qid, sec, i.name, ex, i.price⟩ := by
  cases ex <;> rfl

theorem encodeItem_insertable (sec : String) (ex : Option String) (i : ParsedItem)
    (hn : i.price.isNan = false) :
    insertableVal (encodeItem sec ex i) := by
  intro qid iid
  rw [itemRow_encodeItem, if_neg (by simp [hn])]
  rfl

theorem encodeItem_validVal (sec : String) (ex : Option String) (i : ParsedItem)
    (hsec : trimmedNonempty sec) (hname : trimmedNonempty i.name)
    (hex : validOptText ex) (hpr : notLtZeroPF i.price) :
    validItemVal (encodeItem sec ex i) := by
  intro qid iid r hr
  rw [itemRow_encodeItem] at hr
  by_cases hn : i.price.isNan = true
  · rw [if_pos hn] at hr; cases hr
  · rw [if_neg hn] at hr
    cases hr
    have hn2 : i.price.isNan = false := by
      cases hb : i.price.isNan
      · rfl
      · exact absurd hb hn
    exact ⟨hsec, hname, hex, PyFloat.ge_zero_of_not_lt i.price hn2 hpr⟩

theorem itemRows_valid (qid : Nat) (iid : Nat) (vs : List Value)
    (rs : List ItemRow) (hvs : ∀ v ∈ vs, validItemVal v)
    (h : itemRows qid iid vs = some rs) :
    ∀ r ∈ rs, validItem r := by
  induction vs generalizing iid rs with
  | nil => cases h; simp
  | cons v vs ih =>
    unfold itemRows at h
    cases hv : itemRow qid iid v with
    | none => rw [hv] at h; cases h
    | some r =>
      rw [hv] at h
      cases hr : itemRows qid (iid + 1) vs with
      | none => rw [hr] at h; cases h
      | some rs' =>
        rw [hr] at h
        cases h
        intro r' hr'
        rcases List.mem_cons.mp hr' with rfl | hr'
        · exact hvs v (by simp) qid iid r' hv
        · exact ih (iid + 1) rs' (fun u hu => hvs u (by simp [hu])) hr r' hr'

theorem itemRows_qid (qid : Nat) (iid : Nat) (vs : List Value)
    (rs : List ItemRow) (h : itemRows qid iid vs = some rs) :
    ∀ r ∈ rs, r.quote_id = qid := by
  induction vs generalizing iid rs with
  | nil => cases h; simp
  | cons v vs ih =>
    unfold itemRows at h
    cases hv : itemRow qid iid v with
    | none => rw [hv] at h; cases h
    | some r =>
      rw [hv] at h
      cases hr : itemRows qid (iid + 1) vs with
      | none => rw [hr] at h; cases h
      | some rs' =>
        rw [hr] at h
        cases h
        intro r' hr'
        rcases List.mem_cons.mp hr' with rfl | hr'
        · cases v with
          | dict kvs =>
            change (match kvs.lookup "section", kvs.lookup "name", kvs.lookup "price" with
              | some (.str sec), some (.str nm), some (.num pr) =>
                if pr.isNan = true then none
                else
                  match dictGet kvs "extra" with
                  | .null => some ⟨iid, qid, sec, nm, none, pr⟩
                  | .str ex => some ⟨iid, qid, sec, nm, some ex, pr⟩
                  | _ => none
              | _, _, _ => none) = some r' at hv
            rcases hs : kvs.lookup "section" with _ | sv <;> rw [hs] at hv
            · cases hv
            · rcases hn : kvs.lookup "name" with _ | nv <;> rw [hn] at hv
              · cases sv <;> cases hv
              · rcases hp : kvs.lookup "price" with _ | pv <;> rw [hp] at hv
                · cases sv <;> cases nv <;> cases hv
                · cases sv <;> cases nv <;> cases pv <;> try cases hv
                  rename_i sec nm pr
                  change (if pr.isNan = true then none
                    else match dictGet kvs "extra" with
                      | Value.null => some ⟨iid, qid, sec, nm, none, pr⟩
                      | Value.str ex => some ⟨iid, qid, sec, nm, some ex, pr⟩
                      | _ => none) = some r' at hv
                  by_cases hnp : pr.isNan = true
                  · rw [if_pos hnp] at hv
                    cases hv
                  · rw [if_neg hnp] at hv
                    cases hx : dictGet kvs "extra" <;> rw [hx] at hv <;> try cases hv
                    · rfl
                    · rfl
          | str s => cases hv
          | num q => cases hv
          | bool b => cases hv
          | null => cases hv
          | list xs => cases hv
        · exact ih (iid + 1) rs' hr r' hr'

theorem itemRows_isSome (qid : Nat) (iid : Nat) (vs : List Value)
    (hvs : ∀ v ∈ vs, insertableVal v) :
    ∃ rs, itemRows qid iid vs = some rs := by
  induction vs generalizing iid with
  | nil => exact ⟨[], rfl⟩
  | cons v vs ih =>
    obtain ⟨r, hr⟩ := Option.isSome_iff_exists.mp (hvs v (by simp) qid iid)
    obtain ⟨rs, hrs⟩ := ih (iid + 1) (fun u hu => hvs u (by simp [hu]))
    exact ⟨r :: rs, by simp [itemRows, hr, hrs]⟩

theorem itemRows_append (qid : Nat) (xs ys : List Value) : ∀ iid,
    itemRows qid iid (xs ++ ys) =
      (itemRows qid iid xs).bind (fun rs =>
        (itemRows qid (iid + xs.length) ys).map (fun rs2 => rs ++ rs2)) := by
  induction xs with
  | nil =>
    intro iid
    cases hy : itemRows qid iid ys <;> simp [itemRows, hy]
  | cons x xs ih =>
    intro iid
    rw [List.cons_append]
    cases hx : itemRow qid iid x with
    | none => simp [itemRows, hx]
    | some r =>
      have harith : iid + 1 + xs.length = iid + (x :: xs).length := by
        simp
        omega
      simp only [itemRows, hx, ih (iid + 1), harith]
      cases hr : itemRows qid (iid + 1) xs with
      | none => simp [hr]
      | some rs =>
        cases hy : itemRows qid (iid + (x :: xs).length) ys <;> simp [hr, hy]

theorem itemRows_encodeGroup (qid : Nat) (sec : String) (keep : Bool) :
    ∀ (l : List ParsedItem), (∀ i ∈ l, i.price.isNan = false) → ∀ iid,
    ∃ rs, itemRows qid iid (encodeGroup sec keep l) = some rs ∧
      rs.map itemKey =
        l.map (fun i => (sec, i.name, (if keep then i.extra else none), i.price)) := by
  intro l
  induction l with
  | nil => intro _ iid; exact ⟨[], rfl, rfl⟩
  | cons i l ih =>
    intro hl iid
    obtain ⟨rs, hrs, hmap⟩ := ih (fun j hj => hl j (by simp [hj])) (iid + 1)
    refine ⟨⟨iid, qid, sec, i.name, (if keep then i.extra else none), i.price⟩ :: rs,
      ?_, ?_⟩
    · simp only [encodeGroup] at hrs
      simp [encodeGroup, itemRows, itemRow_encodeItem, hl i (by simp), hrs]
    · simp [itemKey, hmap]

/-! ### Lemmas about the insert and the two handler branches -/

theorem insert_quote_ok (created_at : String) (d : QuoteData) (db db2 : DB)
    (h : insert_quote created_at d db = .ok db2) :
    ∃ em gp irs, d.engine_model = some em ∧ d.generator_power = some gp ∧
      (d.price_engine_combo.isNan || d.price_generator_combo.isNan ||
        d.price_radiator.isNan || d.price_control.isNan ||
        d.price_base.isNan || d.price_color.isNan) = false ∧
      itemRows db.nextQuoteId db.nextItemId d.items = some irs ∧
      db2 = { quotes := db.quotes ++ [mkQuoteRow created_at d em gp db.nextQuoteId],
              quote_items := db.quote_items ++ irs,
              nextQuoteId := db.nextQuoteId + 1,
              nextItemId := db.nextItemId + irs.length } := by
  unfold insert_quote at h
  cases hem : d.engine_model with
  | none => rw [hem] at h; cases h
  | some em =>
    cases hgp : d.generator_power with
    | none => rw [hem, hgp] at h; cases h
    | some gp =>
      rw [hem, hgp] at h
      change (if (d.price_engine_combo.isNan || d.price_generator_combo.isNan ||
          d.price_radiator.isNan || d.price_control.isNan ||
          d.price_base.isNan || d.price_color.isNan) = true then
            (Except.error "integrity_error" : Except String DB)
        else
          match itemRows db.nextQuoteId db.nextItemId d.items with
          | none => Except.error "integrity_error"
          | some irs =>
            Except.ok { quotes := db.quotes ++ [mkQuoteRow created_at d em gp db.nextQuoteId], quote_items := db.quote_items ++ irs, nextQuoteId := db.nextQuoteId + 1, nextItemId := db.nextItemId + irs.length }) = Except.ok db2 at h
      cases hguard : (d.price_engine_combo.isNan || d.price_generator_combo.isNan ||
          d.price_radiator.isNan || d.price_control.isNan ||
          d.price_base.isNan || d.price_color.isNan) with
      | true => rw [if_pos hguard] at h; cases h
      | false =>
        rw [if_neg (by simp [hguard])] at h
        cases hir : itemRows db.nextQuoteId db.nextItemId d.items with
        | none => rw [hir] at h; cases h
        | some irs =>
          rw [hir] at h
          cases h
          exact ⟨em, gp, irs, rfl, rfl, rfl, rfl, rfl⟩

theorem insert_quote_fails (created_at : String) (d : QuoteData) (db : DB)
    (h : itemRows db.nextQuoteId db.nextItemId d.items = none) :
    insert_quote created_at d db = .error "integrity_error" := by
  unfold insert_quote
  cases hem : d.engine_model with
  | none => rfl
  | some em =>
    cases hgp : d.generator_power with
    | none => rfl
    | some gp =>
      show (if (d.price_engine_combo.isNan || d.price_generator_combo.isNan ||
          d.price_radiator.isNan || d.price_control.isNan ||
          d.price_base.isNan || d.price_color.isNan) = true then
            (Except.error "integrity_error" : Except String DB)
        else
          match itemRows db.nextQuoteId db.nextItemId d.items with
          | none => Except.error "integrity_error"
          | some irs =>
            Except.ok { quotes := db.quotes ++ [mkQuoteRow created_at d em gp db.nextQuoteId], quote_items := db.quote_items ++ irs, nextQuoteId := db.nextQuoteId + 1, nextItemId := db.nextItemId + irs.length }) = Except.error "integrity_error"
      by_cases hguard : (d.price_engine_combo.isNan || d.price_generator_combo.isNan ||
          d.price_radiator.isNan || d.price_control.isNan ||
          d.price_base.isNan || d.price_color.isNan) = true
      · rw [if_pos hguard]
      · rw [if_neg hguard, h]

theorem insert_quote_isOk (created_at : String) (d : QuoteData) (db : DB)
    (hem : d.engine_model.isSome) (hgp : d.generator_power.isSome)
    (hguard : (d.price_engine_combo.isNan || d.price_generator_combo.isNan ||
      d.price_radiator.isNan || d.price_control.isNan ||
      d.price_base.isNan || d.price_color.isNan) = false)
    (hit : ∀ v ∈ d.items, insertableVal v) :
    ∃ db2, insert_quote created_at d db = .ok db2 := by
  cases dem : d.engine_model with
  | none => rw [dem] at hem; cases hem
  | some em =>
    cases dgp : d.generator_power with
    | none => rw [dgp] at hgp; cases hgp
    | some gp =>
      obtain ⟨irs, hirs⟩ := itemRows_isSome db.nextQuoteId db.nextItemId d.items hit
      refine ⟨{ quotes := db.quotes ++ [mkQuoteRow created_at d em gp db.nextQuoteId],
                quote_items := db.quote_items ++ irs,
                nextQuoteId := db.nextQuoteId + 1,
                nextItemId := db.nextItemId + irs.length }, ?_⟩
      unfold insert_quote
      rw [dem, dgp]
      show (if (d.price_engine_combo.isNan || d.price_generator_combo.isNan ||
          d.price_radiator.isNan || d.price_control.isNan ||
          d.price_base.isNan || d.price_color.isNan) = true then
            (Except.error "integrity_error" : Except String DB)
        else
          match itemRows db.nextQuoteId db.nextItemId d.items with
          | none => Except.error "integrity_error"
          | some irs =>
            Except.ok { quotes := db.quotes ++ [mkQuoteRow created_at d em gp db.nextQuoteId], quote_items := db.quote_items ++ irs, nextQuoteId := db.nextQuoteId + 1, nextItemId := db.nextItemId + irs.length }) =
        Except.ok ({ quotes := db.quotes ++ [mkQuoteRow created_at d em gp db.nextQuoteId], quote_items := db.quote_items ++ irs, nextQuoteId := db.nextQuoteId + 1, nextItemId := db.nextItemId + irs.length } : DB)
      rw [if_neg (by simp [hguard]), hirs]

theorem validOptTextSome_isSome (o : Option String) (h : validOptTextSome o) :
    o.isSome := by
  cases o with
  | none => cases h
  | some s => rfl

theorem mkQuoteRow_valid (created_at : String) (d : QuoteData) (em gp : String)
    (qid : Nat) (hd : validData d) (hem : d.engine_model = some em)
    (hgp : d.generator_power = some gp)
    (hguard : (d.price_engine_combo.isNan || d.price_generator_combo.isNan ||
      d.price_radiator.isNan || d.price_control.isNan ||
      d.price_base.isNan || d.price_color.isNan) = false) :
    validQuote (mkQuoteRow created_at d em gp qid) := by
  obtain ⟨h1, h2, h3, h4, h5, h6, h7, h8, h9, h10, h11, h12, h13, h14, _⟩ := hd
  rw [hem] at h2
  rw [hgp] at h5
  simp only [Bool.or_eq_false_iff] at hguard
  obtain ⟨⟨⟨⟨⟨g1, g2⟩, g3⟩, g4⟩, g5⟩, g6⟩ := hguard
  exact ⟨h1, h2, h3, h4, h5, h6, h7, h8,
    PyFloat.ge_zero_of_not_lt _ g1 h9, PyFloat.ge_zero_of_not_lt _ g2 h10,
    PyFloat.ge_zero_of_not_lt _ g3 h11, PyFloat.ge_zero_of_not_lt _ g4 h12,
    PyFloat.ge_zero_of_not_lt _ g5 h13, PyFloat.ge_zero_of_not_lt _ g6 h14⟩

theorem insert_quote_dbInv (created_at : String) (d : QuoteData) (db db2 : DB)
    (hdb : dbInv db) (hd : validData d)
    (h : insert_quote created_at d db = .ok db2) : dbInv db2 := by
  obtain ⟨em, gp, irs, hem, hgp, hguard, hirs, hdb2⟩ :=
    insert_quote_ok created_at d db db2 h
  subst hdb2
  constructor
  · intro q hq
    rcases List.mem_append.mp hq with hq | hq
    · exact hdb.1 q hq
    · rcases List.mem_singleton.mp hq with rfl
      exact mkQuoteRow_valid created_at d em gp db.nextQuoteId hd hem hgp hguard
  · intro it hit
    rcases List.mem_append.mp hit with hit | hit
    · exact hdb.2 it hit
    · exact itemRows_valid db.nextQuoteId db.nextItemId d.items irs
        (fun v hv => hd.2.2.2.2.2.2.2.2.2.2.2.2.2.2 v hv) hirs it hit

theorem insert_quote_refIntegrity (created_at : String) (d : QuoteData) (db db2 : DB)
    (hdb : refIntegrity db)
    (h : insert_quote created_at d db = .ok db2) : refIntegrity db2 := by
  obtain ⟨em, gp, irs, hem, hgp, hguard, hirs, hdb2⟩ :=
    insert_quote_ok created_at d db db2 h
  subst hdb2
  intro it hit
  rcases List.mem_append.mp hit with hit | hit
  · obtain ⟨q, hq, hqid⟩ := hdb it hit
    exact ⟨q, List.mem_append.mpr (Or.inl hq), hqid⟩
  · refine ⟨mkQuoteRow created_at d em gp db.nextQuoteId, ?_, ?_⟩
    · exact List.mem_append.mpr (Or.inr (by simp))
    · exact (itemRows_qid db.nextQuoteId db.nextItemId d.items irs hirs it hit).symm

theorem length_succ_cons {α : Type} (l : List α) (n : Nat) (h : l.length = n + 1) :
    ∃ a t, l = a :: t ∧ t.length = n := by
  obtain ⟨a, t, rfl⟩ := List.exists_of_length_succ l h
  rw [List.length_cons] at h
  exact ⟨a, t, rfl, by omega⟩

theorem mkFlatData_isSome (ts : List String) (qs : List PyFloat)
    (h8 : ts.length = 8) (h6 : qs.length = 6) :
    ∃ d, mkFlatData ts qs = some d := by
  obtain ⟨a1, ts, rfl, k1⟩ := length_succ_cons ts 7 h8
  obtain ⟨a2, ts, rfl, k2⟩ := length_succ_cons ts 6 k1
  obtain ⟨a3, ts, rfl, k3⟩ := length_succ_cons ts 5 k2
  obtain ⟨a4, ts, rfl, k4⟩ := length_succ_cons ts 4 k3
  obtain ⟨a5, ts, rfl, k5⟩ := length_succ_cons ts 3 k4
  obtain ⟨a6, ts, rfl, k6⟩ := length_succ_cons ts 2 k5
  obtain ⟨a7, ts, rfl, k7⟩ := length_succ_cons ts 1 k6
  obtain ⟨a8, ts, rfl, k8⟩ := length_succ_cons ts 0 k7
  obtain rfl := List.length_eq_zero.mp k8
  obtain ⟨b1, qs, rfl, m1⟩ := length_succ_cons qs 5 h6
  obtain ⟨b2, qs, rfl, m2⟩ := length_succ_cons qs 4 m1
  obtain ⟨b3, qs, rfl, m3⟩ := length_succ_cons qs 3 m2
  obtain ⟨b4, qs, rfl, m4⟩ := length_succ_cons qs 2 m3
  obtain ⟨b5, qs, rfl, m5⟩ := length_succ_cons qs 1 m4
  obtain ⟨b6, qs, rfl, m6⟩ := length_succ_cons qs 0 m5
  obtain rfl := List.length_eq_zero.mp m6
  exact ⟨_, rfl⟩

theorem handleFlat_ok_valid (p : Payload) (d : QuoteData)
    (h : handleFlat p = .ok d) : validData d := by
  unfold handleFlat at h
  cases ht : runFields validateText p required_fields with
  | error e => rw [ht] at h; cases h
  | ok ts =>
    rw [ht] at h
    cases hq : runFields validatePrice p price_fields with
    | error e => rw [hq] at h; cases h
    | ok qs =>
      rw [hq] at h
      change (match mkFlatData ts qs with
        | some d => Except.ok d
        | none => Except.error "invalid_rows") = Except.ok d at h
      obtain ⟨hlen8, hmem8⟩ := runFields_ok_forall validateText p required_fields ts ht
      obtain ⟨hlen6, hmem6⟩ := runFields_ok_forall validatePrice p price_fields qs hq
      have h8 : ts.length = 8 := by rw [hlen8]; rfl
      have h6 : qs.length = 6 := by rw [hlen6]; rfl
      have hts : ∀ t ∈ ts, trimmedNonempty t := by
        intro t htm
        obtain ⟨g, _, hg⟩ := hmem8 t htm
        exact validateText_some _ _ hg
      have hqs : ∀ q ∈ qs, notLtZeroPF q := by
        intro q hqm
        obtain ⟨g, _, hg⟩ := hmem6 q hqm
        exact validatePrice_some _ _ hg
      clear hlen8 hlen6 hmem8 hmem6 ht hq
      obtain ⟨a1, ts, rfl, k1⟩ := length_succ_cons ts 7 h8
      obtain ⟨a2, ts, rfl, k2⟩ := length_succ_cons ts 6 k1
      obtain ⟨a3, ts, rfl, k3⟩ := length_succ_cons ts 5 k2
      obtain ⟨a4, ts, rfl, k4⟩ := length_succ_cons ts 4 k3
      obtain ⟨a5, ts, rfl, k5⟩ := length_succ_cons ts 3 k4
      obtain ⟨a6, ts, rfl, k6⟩ := length_succ_cons ts 2 k5
      obtain ⟨a7, ts, rfl, k7⟩ := length_succ_cons ts 1 k6
      obtain ⟨a8, ts, rfl, k8⟩ := length_succ_cons ts 0 k7
      obtain rfl := List.length_eq_zero.mp k8
      obtain ⟨b1, qs, rfl, m1⟩ := length_succ_cons qs 5 h6
      obtain ⟨b2, qs, rfl, m2⟩ := length_succ_cons qs 4 m1
      obtain ⟨b3, qs, rfl, m3⟩ := length_succ_cons qs 3 m2
      obtain ⟨b4, qs, rfl, m4⟩ := length_succ_cons qs 2 m3
      obtain ⟨b5, qs, rfl, m5⟩ := length_succ_cons qs 1 m4
      obtain ⟨b6, qs, rfl, m6⟩ := length_succ_cons qs 0 m5
      obtain rfl := List.length_eq_zero.mp m6
      simp only [mkFlatData] at h
      cases h
      exact ⟨hts a1 (by simp), hts a2 (by simp), hts a3 (by simp), hts a4 (by simp),
        hts a5 (by simp), hts a6 (by simp), hts a7 (by simp), hts a8 (by simp),
        hqs b1 (by simp), hqs b2 (by simp), hqs b3 (by simp), hqs b4 (by simp),
        hqs b5 (by simp), hqs b6 (by simp), by simp⟩

theorem handleFlat_error_mem (p : Payload) (e : String)
    (h : handleFlat p = .error e) :
    ∃ f ∈ required_fields ++ price_fields, e = "invalid_" ++ f := by
  unfold handleFlat at h
  cases ht : runFields validateText p required_fields with
  | error e2 =>
    rw [ht] at h
    cases h
    obtain ⟨f, hf, he, _⟩ := runFields_error_mem validateText p required_fields e ht
    exact ⟨f, List.mem_append.mpr (Or.inl hf), he⟩
  | ok ts =>
    rw [ht] at h
    cases hq : runFields validatePrice p price_fields with
    | error e2 =>
      rw [hq] at h
      cases h
      obtain ⟨f, hf, he, _⟩ := runFields_error_mem validatePrice p price_fields e hq
      exact ⟨f, List.mem_append.mpr (Or.inr hf), he⟩
    | ok qs =>
      rw [hq] at h
      change (match mkFlatData ts qs with
        | some d => Except.ok d
        | none => Except.error "invalid_rows") = Except.error e at h
      obtain ⟨hlen8, _⟩ := runFields_ok_forall validateText p required_fields ts ht
      obtain ⟨hlen6, _⟩ := runFields_ok_forall validatePrice p price_fields qs hq
      obtain ⟨d, hd⟩ := mkFlatData_isSome ts qs (by rw [hlen8]; rfl) (by rw [hlen6]; rfl)
      rw [hd] at h
      cases h

theorem parse_items_facts_some (nk ek : String) (v : Value) (l : List ParsedItem)
    (h : parse_items nk (some ek) v = some l) :
    ∀ i ∈ l, trimmedNonempty i.name ∧ validOptText i.extra ∧ notLtZeroPF i.price ∧
      ∃ s, i.extra = some s ∧ trimmedNonempty s := by
  intro i hi
  obtain ⟨_, hall⟩ := parse_items_some _ _ _ _ h
  obtain ⟨u, hu⟩ := hall i hi
  obtain ⟨hn, ⟨s, hs, hst⟩, hp⟩ := parse_item_some_some _ _ _ _ hu
  refine ⟨hn, ?_, hp, s, hs, hst⟩
  rw [hs]
  exact hst

theorem parse_items_facts_none (nk : String) (v : Value) (l : List ParsedItem)
    (h : parse_items nk none v = some l) :
    ∀ i ∈ l, trimmedNonempty i.name ∧ validOptText i.extra ∧ notLtZeroPF i.price := by
  intro i hi
  obtain ⟨_, hall⟩ := parse_items_some _ _ _ _ h
  obtain ⟨u, hu⟩ := hall i hi
  obtain ⟨hn, hx, hp⟩ := parse_item_some_none _ _ _ hu
  refine ⟨hn, ?_, hp⟩
  rw [hx]
  exact trivial

theorem encodeGroup_valid (sec : String) (keep : Bool) (l : List ParsedItem)
    (hsec : trimmedNonempty sec)
    (hl : ∀ i ∈ l, trimmedNonempty i.name ∧ validOptText i.extra ∧ notLtZeroPF i.price) :
    ∀ v ∈ encodeGroup sec keep l, validItemVal v := by
  intro v hv
  obtain ⟨i, hi, rfl⟩ := List.mem_map.mp hv
  obtain ⟨hn, hx, hp⟩ := hl i hi
  refine encodeItem_validVal _ _ _ hsec hn ?_ hp
  cases keep
  · exact trivial
  · exact hx

theorem mkGroupedData_ok (e g r c b col : List ParsedItem)
    (he : e ≠ []) (hg : g ≠ []) (hr : r ≠ []) (hc : c ≠ []) (hb : b ≠ [])
    (hcol : col ≠ []) : ∃ d, mkGroupedData e g r c b col = .ok d := by
  cases e with
  | nil => exact absurd rfl he
  | cons fe es =>
    cases g with
    | nil => exact absurd rfl hg
    | cons fg gs =>
      cases r with
      | nil => exact absurd rfl hr
      | cons fr rs =>
        cases c with
        | nil => exact absurd rfl hc
        | cons fc cs =>
          cases b with
          | nil => exact absurd rfl hb
          | cons fb bs =>
            cases col with
            | nil => exact absurd rfl hcol
            | cons fcol cols => exact ⟨_, rfl⟩

theorem handleGrouped_ok_valid (p : Payload) (d : QuoteData)
    (h : handleGrouped p = .ok d) : validData d := by
  unfold handleGrouped at h
  cases hpe : parse_items "engine_category" (some "engine_model") (dictGet p "engine_items") with
  | none => rw [hpe] at h; cases h
  | some e =>
    rw [hpe] at h
    cases hpg : parse_items "generator_category" (some "generator_power") (dictGet p "generator_items") with
    | none => rw [hpg] at h; cases h
    | some g =>
      rw [hpg] at h
      cases hpr : parse_items "radiator_type" none (dictGet p "radiator_items") with
      | none => rw [hpr] at h; cases h
      | some r =>
        rw [hpr] at h
        cases hpc : parse_items "control_system" none (dictGet p "control_items") with
        | none => rw [hpc] at h; cases h
        | some c =>
          rw [hpc] at h
          cases hpb : parse_items "base_type" none (dictGet p "base_items") with
          | none => rw [hpb] at h; cases h
          | some b =>
            rw [hpb] at h
            cases hpcol : parse_items "unit_color" none (dictGet p "color_items") with
            | none => rw [hpcol] at h; cases h
            | some col =>
              rw [hpcol] at h
              change mkGroupedData e g r c b col = Except.ok d at h
              have hef := parse_items_facts_some _ _ _ _ hpe
              have hgf := parse_items_facts_some _ _ _ _ hpg
              have hrf := parse_items_facts_none _ _ _ hpr
              have hcf := parse_items_facts_none _ _ _ hpc
              have hbf := parse_items_facts_none _ _ _ hpb
              have hcolf := parse_items_facts_none _ _ _ hpcol
              obtain ⟨hene, _⟩ := parse_items_some _ _ _ _ hpe
              obtain ⟨hgne, _⟩ := parse_items_some _ _ _ _ hpg
              obtain ⟨hrne, _⟩ := parse_items_some _ _ _ _ hpr
              obtain ⟨hcne, _⟩ := parse_items_some _ _ _ _ hpc
              obtain ⟨hbne, _⟩ := parse_items_some _ _ _ _ hpb
              obtain ⟨hcolne, _⟩ := parse_items_some _ _ _ _ hpcol
              cases e with
              | nil => exact absurd rfl hene
              | cons fe es =>
                cases g with
                | nil => exact absurd rfl hgne
                | cons fg gs =>
                  cases r with
                  | nil => exact absurd rfl hrne
                  | cons fr rs =>
                    cases c with
                    | nil => exact absurd rfl hcne
                    | cons fc cs =>
                      cases b with
                      | nil => exact absurd rfl hbne
                      | cons fb bs =>
                        cases col with
                        | nil => exact absurd rfl hcolne
                        | cons fcol cols =>
                          simp only [mkGroupedData] at h
                          cases h
                          refine ⟨(hef fe (by simp)).1, ?_, (hrf fr (by simp)).1,
                            (hgf fg (by simp)).1, ?_, (hcf fc (by simp)).1,
                            (hbf fb (by simp)).1, (hcolf fcol (by simp)).1,
                            (hef fe (by simp)).2.2.1, (hgf fg (by simp)).2.2.1,
                            (hrf fr (by simp)).2.2, (hcf fc (by simp)).2.2,
                            (hbf fb (by simp)).2.2, (hcolf fcol (by simp)).2.2, ?_⟩
                          · obtain ⟨s, hs, hst⟩ := (hef fe (by simp)).2.2.2
                            rw [hs]
                            exact hst
                          · obtain ⟨s, hs, hst⟩ := (hgf fg (by simp)).2.2.2
                            rw [hs]
                            exact hst
                          · intro v hv
                            rcases List.mem_append.mp hv with hv | h6
                            · rcases List.mem_append.mp hv with hv | h5
                              · rcases List.mem_append.mp hv with hv | h4
                                · rcases List.mem_append.mp hv with hv | h3
                                  · rcases List.mem_append.mp hv with h1 | h2
                                    · exact encodeGroup_valid _ _ _ ⟨by decide, by decide⟩
                                        (fun i hi => ⟨(hef i hi).1, (hef i hi).2.1,
                                          (hef i hi).2.2.1⟩) v h1
                                    · exact encodeGroup_valid _ _ _ ⟨by decide, by decide⟩
                                        (fun i hi => ⟨(hgf i hi).1, (hgf i hi).2.1,
                                          (hgf i hi).2.2.1⟩) v h2
                                  · exact encodeGroup_valid _ _ _ ⟨by decide, by decide⟩
                                      (fun i hi => hrf i hi) v h3
                                · exact encodeGroup_valid _ _ _ ⟨by decide, by decide⟩
                                    (fun i hi => hcf i hi) v h4
                              · exact encodeGroup_valid _ _ _ ⟨by decide, by decide⟩
                                  (fun i hi => hbf i hi) v h5
                            · exact encodeGroup_valid _ _ _ ⟨by decide, by decide⟩
                                (fun i hi => hcolf i hi) v h6

theorem handleGrouped_error_mem (p : Payload) (e : String)
    (h : handleGrouped p = .error e) : e ∈ groupErrs := by
  unfold handleGrouped at h
  cases hpe : parse_items "engine_category" (some "engine_model") (dictGet p "engine_items") with
  | none => rw [hpe] at h; cases h; simp [groupErrs]
  | some el =>
    rw [hpe] at h
    cases hpg : parse_items "generator_category" (some "generator_power") (dictGet p "generator_items") with
    | none => rw [hpg] at h; cases h; simp [groupErrs]
    | some gl =>
      rw [hpg] at h
      cases hpr : parse_items "radiator_type" none (dictGet p "radiator_items") with
      | none => rw [hpr] at h; cases h; simp [groupErrs]
      | some rl =>
        rw [hpr] at h
        cases hpc : parse_items "control_system" none (dictGet p "control_items") with
        | none => rw [hpc] at h; cases h; simp [groupErrs]
        | some cl =>
          rw [hpc] at h
          cases hpb : parse_items "base_type" none (dictGet p "base_items") with
          | none => rw [hpb] at h; cases h; simp [groupErrs]
          | some bl =>
            rw [hpb] at h
            cases hpcol : parse_items "unit_color" none (dictGet p "color_items") with
            | none => rw [hpcol] at h; cases h; simp [groupErrs]
            | some coll =>
              rw [hpcol] at h
              change mkGroupedData el gl rl cl bl coll = Except.error e at h
              obtain ⟨d, hd⟩ := mkGroupedData_ok el gl rl cl bl coll
                (parse_items_some _ _ _ _ hpe).1 (parse_items_some _ _ _ _ hpg).1
                (parse_items_some _ _ _ _ hpr).1 (parse_items_some _ _ _ _ hpc).1
                (parse_items_some _ _ _ _ hpb).1 (parse_items_some _ _ _ _ hpcol).1
              rw [hd] at h
              cases h

/-! ### Invariant preservation through do_POST and reachability -/

theorem do_POST_some_eq (payload : Payload) (created_at : String) (db : DB) :
    do_POST (some payload) created_at db =
      if (payload.lookup "engine_items").isSome then
        match handleGrouped payload with
        | .error e => (db, .err 400 e)
        | .ok d =>
          match insert_quote created_at d db with
          | .error _ => (db, .exn)
          | .ok db2 => (db2, .ok 201)
      else
        match handleFlat payload with
        | .error e => (db, .err 400 e)
        | .ok d =>
          match insert_quote created_at d db with
          | .error _ => (db, .exn)
          | .ok db2 => (db2, .ok 201) := rfl

theorem do_POST_dbInv (body : Option Payload) (created_at : String) (db : DB)
    (hdb : dbInv db) : dbInv (do_POST body created_at db).1 := by
  cases body with
  | none => exact hdb
  | some payload =>
    rw [do_POST_some_eq]
    by_cases hin : (payload.lookup "engine_items").isSome
    · rw [if_pos hin]
      cases hg : handleGrouped payload with
      | error e => exact hdb
      | ok d =>
        show dbInv (match insert_quote created_at d db with
          | Except.error _ => (db, Resp.exn)
          | Except.ok db2 => (db2, Resp.ok 201)).1
        cases hi : insert_quote created_at d db with
        | error e => exact hdb
        | ok db2 =>
          exact insert_quote_dbInv created_at d db db2 hdb
            (handleGrouped_ok_valid payload d hg) hi
    · rw [if_neg hin]
      cases hf : handleFlat payload with
      | error e => exact hdb
      | ok d =>
        show dbInv (match insert_quote created_at d db with
          | Except.error _ => (db, Resp.exn)
          | Except.ok db2 => (db2, Resp.ok 201)).1
        cases hi : insert_quote created_at d db with
        | error e => exact hdb
        | ok db2 =>
          exact insert_quote_dbInv created_at d db db2 hdb
            (handleFlat_ok_valid payload d hf) hi

theorem do_POST_refIntegrity (body : Option Payload) (created_at : String) (db : DB)
    (hdb : refIntegrity db) : refIntegrity (do_POST body created_at db).1 := by
  cases body with
  | none => exact hdb
  | some payload =>
    rw [do_POST_some_eq]
    by_cases hin : (payload.lookup "engine_items").isSome
    · rw [if_pos hin]
      cases hg : handleGrouped payload with
      | error e => exact hdb
      | ok d =>
        show refIntegrity (match insert_quote created_at d db with
          | Except.error _ => (db, Resp.exn)
          | Except.ok db2 => (db2, Resp.ok 201)).1
        cases hi : insert_quote created_at d db with
        | error e => exact hdb
        | ok db2 => exact insert_quote_refIntegrity created_at d db db2 hdb hi
    · rw [if_neg hin]
      cases hf : handleFlat payload with
      | error e => exact hdb
      | ok d =>
        show refIntegrity (match insert_quote created_at d db with
          | Except.error _ => (db, Resp.exn)
          | Except.ok db2 => (db2, Resp.ok 201)).1
        cases hi : insert_quote created_at d db with
        | error e => exact hdb
        | ok db2 => exact insert_quote_refIntegrity created_at d db db2 hdb hi

/-! ### Claim theorems -/

/-- C3: for every free-text field of a submitted record, the value is
accepted if and only if it is a string whose trimmed form is non-empty, and
the value that is stored is the trimmed string. -/
theorem C3_free_text_rule (v : Value) (t : String) :
    validateText v = some t ↔ ∃ s, v = Value.str s ∧ pyStrip s ≠ "" ∧ t = pyStrip s := by
  constructor
  · intro h
    cases v with
    | str s =>
      by_cases he : pyStrip s = ""
      · simp [validateText, if_pos he] at h
      · simp only [validateText, if_neg he] at h
        cases h
        exact ⟨s, rfl, he, rfl⟩
    | num q => cases h
    | bool b => cases h
    | null => cases h
    | list xs => cases h
    | dict kvs => cases h
  · rintro ⟨s, rfl, he, rfl⟩
    show (if pyStrip s = "" then none else some (pyStrip s)) = some (pyStrip s)
    rw [if_neg he]

/-- C4 counterexample: the string "nan" is converted by `float()` to NaN,
which passes the code's `price_value < 0` test (NaN comparisons are false)
and is accepted, yet NaN is not greater than or equal to zero — so
"accepted iff it converts to a number that is at least zero" fails here. -/
theorem C4_counterexample :
    validatePrice (Value.str "nan") = some PyFloat.nan ∧
    PyFloat.ge PyFloat.nan (PyFloat.finite 0) = false := ⟨rfl, rfl⟩

/-- C4 amended: a price field value is accepted iff `float()` converts it
and the result is not less than zero (the code's actual test); "not less
than zero" coincides with "greater than or equal to zero" for every
non-NaN float but not for NaN, which is accepted; and the
`invalid_<field>` error codes of distinct fields are distinct. -/
theorem C4_price_field_rule :
    (∀ (v : Value) (x : PyFloat), validatePrice v = some x ↔
      pyFloat v = some x ∧ notLtZeroPF x) ∧
    (∀ x : PyFloat, x.isNan = false → (notLtZeroPF x ↔ nonNegPF x)) ∧
    (∀ f g : String, f ≠ g → "invalid_" ++ f ≠ "invalid_" ++ g) := by
  refine ⟨?_, ?_, ?_⟩
  · intro v x
    unfold validatePrice
    cases hf : pyFloat v with
    | none => simp [notLtZeroPF]
    | some r =>
      change (if PyFloat.lt r (PyFloat.finite 0) = true then none else some r) = some x ↔
        some r = some x ∧ notLtZeroPF x
      by_cases hb : PyFloat.lt r (PyFloat.finite 0) = true
      · rw [if_pos hb]
        constructor
        · intro h
          cases h
        · rintro ⟨h1, h2⟩
          cases h1
          unfold notLtZeroPF at h2
          rw [h2] at hb
          cases hb
      · rw [if_neg hb]
        have hb2 : PyFloat.lt r (PyFloat.finite 0) = false := by
          cases hbv : PyFloat.lt r (PyFloat.finite 0)
          · rfl
          · exact absurd hbv hb
        constructor
        · intro h
          cases h
          exact ⟨rfl, hb2⟩
        · rintro ⟨h1, _⟩
          cases h1
          rfl
  · intro x hn
    cases x with
    | finite a =>
      unfold notLtZeroPF nonNegPF
      simp [PyFloat.lt, PyFloat.ge]
    | inf => simp [notLtZeroPF, nonNegPF, PyFloat.lt, PyFloat.ge]
    | ninf => simp [notLtZeroPF, nonNegPF, PyFloat.lt, PyFloat.ge]
    | nan => cases hn
  · intro f g hfg h
    apply hfg
    have hd := congrArg String.data h
    rw [String.data_append, String.data_append] at hd
    exact String.ext (List.append_cancel_left hd)

/-- Witness for the amended C4: string conversion accepts an exponent and
an underscored literal, the not-less-than-zero/at-least-zero equivalence at
a non-NaN input, and distinctness of two error codes. -/
theorem C4_price_field_rule_witness :
    validatePrice (Value.str " 1E3 ") = some (PyFloat.finite 1000) ∧
    validatePrice (Value.str "1_5.5") = some (PyFloat.finite (mkRat 31 2)) ∧
    (notLtZeroPF (PyFloat.finite 3) ↔ nonNegPF (PyFloat.finite 3)) ∧
    "invalid_price_base" ≠ "invalid_price_color" :=
  ⟨(C4_price_field_rule.1 (Value.str " 1E3 ") (PyFloat.finite 1000)).mpr
      ⟨by decide, rfl⟩,
   (C4_price_field_rule.1 (Value.str "1_5.5") (PyFloat.finite (mkRat 31 2))).mpr
      ⟨by decide, rfl⟩,
   C4_price_field_rule.2.1 (PyFloat.finite 3) rfl,
   C4_price_field_rule.2.2 "price_base" "price_color" (by decide)⟩

/-- C1: flat-path validation visits the writable fields in schema order
(the eight text columns then the six price columns), stops at the first
failing field, reports `invalid_<that field>`, and writes nothing; and the
grouped-path row loop visits items in original order and aborts at the
first failing item. -/
theorem C1_fail_fast (p : Payload) (db : DB) (created_at : String) (f : String)
    (hng : p.lookup "engine_items" = none)
    (hf : firstFail p = some f) :
    do_POST (some p) created_at db = (db, Resp.err 400 ("invalid_" ++ f)) ∧
    ∀ (nk : String) (ek : Option String) (vs1 : List Value) (v : Value)
      (vs2 : List Value),
      (∀ u ∈ vs1, (parse_item nk ek u).isSome) → parse_item nk ek v = none →
      parse_items nk ek (Value.list (vs1 ++ v :: vs2)) = none := by
  constructor
  · rw [do_POST_some_eq, if_neg (by simp [hng])]
    have hflat : handleFlat p = .error ("invalid_" ++ f) := by
      unfold firstFail at hf
      cases hreq : required_fields.find? (fun g => (validateText (dictGet p g)).isNone) with
      | some f2 =>
        rw [hreq] at hf
        simp at hf
        subst hf
        unfold handleFlat
        rw [runFields_error_of_find validateText p required_fields f2 hreq]
      | none =>
        rw [hreq] at hf
        simp at hf
        obtain ⟨xs, hxs, _, _⟩ := runFields_ok_of_find_none validateText p required_fields hreq
        unfold handleFlat
        rw [hxs, runFields_error_of_find validatePrice p price_fields f hf]
    rw [hflat]
  · intro nk ek vs1 v vs2 hok hfail
    exact parse_items_first_fail nk ek vs1 v vs2 hok hfail

/-- Witness for C1: the empty payload fails on the first schema field. -/
theorem C1_fail_fast_witness :
    do_POST (some []) "t" initDB = (initDB, Resp.err 400 "invalid_engine_category") :=
  (C1_fail_fast [] initDB "t" "engine_category" rfl (by decide)).1

/-- C5 counterexample: submitting an empty item list is not a successful
replace with zero rows; the request is rejected with a 400 error and the
state is unchanged. -/
theorem C5_counterexample :
    do_POST (some [("engine_items", Value.list [])]) "t" initDB =
      (initDB, Resp.err 400 "invalid_engine_items") ∧
    (do_POST (some [("engine_items", Value.list [])]) "t" initDB).2 ≠ Resp.ok 201 := by
  exact ⟨rfl, by decide⟩

/-- C5 amended: a payload whose engine_items is an empty array is rejected
as a shape error (`invalid_engine_items`) and nothing is written. -/
theorem C5_empty_rejected (p : Payload) (created_at : String) (db : DB)
    (h : p.lookup "engine_items" = some (Value.list [])) :
    do_POST (some p) created_at db = (db, Resp.err 400 "invalid_engine_items") := by
  rw [do_POST_some_eq, if_pos (by simp [h])]
  have hg : handleGrouped p = .error "invalid_engine_items" := by
    unfold handleGrouped
    have hd : dictGet p "engine_items" = Value.list [] := by simp [dictGet, h]
    rw [hd]
    rfl
  rw [hg]

/-- Witness for the amended C5 at a concrete input. -/
theorem C5_empty_rejected_witness :
    do_POST (some [("engine_items", Value.list [])]) "t2" initDB =
      (initDB, Resp.err 400 "invalid_engine_items") :=
  C5_empty_rejected [("engine_items", Value.list [])] "t2" initDB rfl

/-- C2: in every database state reachable through the API, every persisted
quotes row has its eight writable text columns equal to their own strip and
non-empty and its six price columns non-negative, and every quote_items row
likewise satisfies the rules (extra, when present, included). -/
theorem C2_persisted_rows_valid (db : DB) (h : Reachable db) : dbInv db := by
  induction h with
  | init => exact ⟨by simp [initDB], by simp [initDB]⟩
  | post body created_at db2 hdb ih => exact do_POST_dbInv body created_at db2 ih

/-- Witness for C2 on a reachable non-empty state. -/
theorem C2_persisted_rows_valid_witness : dbInv dbA :=
  C2_persisted_rows_valid dbA
    (Reachable.post (some (flatP "A")) "t1" initDB Reachable.init)

/-- C9: insert_quote is transactional: if binding any item fails the whole
insert fails (the quote row is not persisted either); a successful insert
appends exactly one quote row and its item rows, every one of which refers
to the new quote row; consequently every reachable state has referential
integrity from quote_items to quotes. -/
theorem C9_transactional (created_at : String) (d : QuoteData) (db : DB) :
    (itemRows db.nextQuoteId db.nextItemId d.items = none →
      insert_quote created_at d db = .error "integrity_error") ∧
    (∀ db2, insert_quote created_at d db = .ok db2 →
      ∃ em gp irs, d.engine_model = some em ∧ d.generator_power = some gp ∧
        itemRows db.nextQuoteId db.nextItemId d.items = some irs ∧
        db2.quotes = db.quotes ++ [mkQuoteRow created_at d em gp db.nextQuoteId] ∧
        db2.quote_items = db.quote_items ++ irs ∧
        ∀ r ∈ irs, r.quote_id = db.nextQuoteId) ∧
    (Reachable db → refIntegrity db) := by
  refine ⟨insert_quote_fails created_at d db, ?_, ?_⟩
  · intro db2 h
    obtain ⟨em, gp, irs, hem, hgp, hguard, hirs, rfl⟩ :=
      insert_quote_ok created_at d db db2 h
    exact ⟨em, gp, irs, hem, hgp, hirs, rfl, rfl,
      itemRows_qid db.nextQuoteId db.nextItemId d.items irs hirs⟩
  · intro hr
    induction hr with
    | init => intro it hit; simp [initDB] at hit
    | post body ca db2 hdb ih => exact do_POST_refIntegrity body ca db2 ih

/-- Witness for C9: a null item makes the insert fail, and the initial
database has referential integrity. -/
theorem C9_transactional_witness :
    insert_quote "t" badData initDB = .error "integrity_error" ∧
    refIntegrity initDB :=
  ⟨(C9_transactional "t" badData initDB).1 rfl,
   (C9_transactional "t" badData initDB).2.2 Reachable.init⟩

theorem mem_insertByIdDesc (r x : QuoteRow) (l : List QuoteRow) :
    x ∈ insertByIdDesc r l ↔ x = r ∨ x ∈ l := by
  induction l with
  | nil => simp [insertByIdDesc]
  | cons y ys ih =>
    unfold insertByIdDesc
    by_cases hy : y.id ≤ r.id
    · rw [if_pos hy]
      simp [List.mem_cons]
    · rw [if_neg hy]
      simp [List.mem_cons, ih]
      tauto

theorem pairwise_insertByIdDesc (r : QuoteRow) (l : List QuoteRow)
    (hl : l.Pairwise (fun a b => b.id ≤ a.id)) :
    (insertByIdDesc r l).Pairwise (fun a b => b.id ≤ a.id) := by
  induction l with
  | nil => simp [insertByIdDesc]
  | cons y ys ih =>
    unfold insertByIdDesc
    rcases List.pairwise_cons.mp hl with ⟨hy, hys⟩
    by_cases hle : y.id ≤ r.id
    · rw [if_pos hle]
      refine List.pairwise_cons.mpr ⟨?_, hl⟩
      intro b hb
      rcases List.mem_cons.mp hb with rfl | hb
      · exact hle
      · exact le_trans (hy b hb) hle
    · rw [if_neg hle]
      refine List.pairwise_cons.mpr ⟨?_, ih hys⟩
      intro b hb
      rcases (mem_insertByIdDesc r b ys).mp hb with rfl | hb
      · exact Nat.le_of_not_le hle
      · exact hy b hb

theorem perm_insertByIdDesc (r : QuoteRow) (l : List QuoteRow) :
    List.Perm (insertByIdDesc r l) (r :: l) := by
  induction l with
  | nil => exact List.Perm.refl _
  | cons y ys ih =>
    unfold insertByIdDesc
    by_cases hy : y.id ≤ r.id
    · rw [if_pos hy]
    · rw [if_neg hy]
      exact List.Perm.trans (List.Perm.cons y ih) (List.Perm.swap r y ys)

theorem sortByIdDesc_pairwise (l : List QuoteRow) :
    (sortByIdDesc l).Pairwise (fun a b => b.id ≤ a.id) := by
  induction l with
  | nil => simp [sortByIdDesc]
  | cons x xs ih => exact pairwise_insertByIdDesc x (sortByIdDesc xs) ih

theorem sortByIdDesc_perm (l : List QuoteRow) : List.Perm (sortByIdDesc l) l := by
  induction l with
  | nil => exact List.Perm.refl _
  | cons x xs ih =>
    exact List.Perm.trans (perm_insertByIdDesc x (sortByIdDesc xs)) (List.Perm.cons x ih)

/-- C6 amended: list_quotes returns exactly the stored rows, ordered by the
surrogate identifier in DESCENDING order (newest first); there is no other
sort key. -/
theorem C6_listing_order (db : DB) :
    (list_quotes db).Pairwise (fun a b => b.id ≤ a.id) ∧
    List.Perm (list_quotes db) db.quotes :=
  ⟨sortByIdDesc_pairwise db.quotes, sortByIdDesc_perm db.quotes⟩

/-- C6 counterexample: after two submissions with identical content, every
content column ties, yet list_quotes reports ids [2, 1]: the surrogate
identifiers come out in descending, not ascending, order. -/
theorem C6_counterexample :
    (list_quotes dbAA).map (fun r => r.id) = [2, 1] ∧
    (list_quotes dbAA).map (fun r => r.engine_category) = ["A", "A"] ∧
    ¬ ((list_quotes dbAA).map (fun r => r.id)).Pairwise (fun a b => a ≤ b) := by
  refine ⟨rfl, rfl, ?_⟩
  intro hp
  have h2 : (list_quotes dbAA).map (fun r => r.id) = [2, 1] := rfl
  rw [h2] at hp
  have := (List.pairwise_cons.mp hp).1 1 (by simp)
  omega

/-- C8 amended: every error code do_POST can surface is either
`invalid_json`, `invalid_<field>` for one of the fourteen writable columns,
or `invalid_<group>_items` for one of the six item groups. -/
theorem C8_error_codes (body : Option Payload) (created_at : String)
    (db : DB) (e : String)
    (h : respErr (do_POST body created_at db).2 = some e) : e ∈ allowedErrs := by
  cases body with
  | none =>
    cases h
    simp [allowedErrs]
  | some payload =>
    rw [do_POST_some_eq] at h
    by_cases hin : (payload.lookup "engine_items").isSome
    · rw [if_pos hin] at h
      cases hg : handleGrouped payload with
      | error e2 =>
        rw [hg] at h
        cases h
        exact List.mem_cons.mpr (Or.inr (List.mem_append.mpr
          (Or.inr (handleGrouped_error_mem payload e hg))))
      | ok d =>
        rw [hg] at h
        change respErr (match insert_quote created_at d db with
          | Except.error _ => (db, Resp.exn)
          | Except.ok db2 => (db2, Resp.ok 201)).2 = some e at h
        cases hins : insert_quote created_at d db with
        | error e2 => rw [hins] at h; cases h
        | ok db2 => rw [hins] at h; cases h
    · rw [if_neg hin] at h
      cases hflat : handleFlat payload with
      | error e2 =>
        rw [hflat] at h
        cases h
        obtain ⟨f, hf, he⟩ := handleFlat_error_mem payload e hflat
        rw [he]
        exact List.mem_cons.mpr (Or.inr (List.mem_append.mpr
          (Or.inl (List.mem_map.mpr ⟨f, hf, rfl⟩))))
      | ok d =>
        rw [hflat] at h
        change respErr (match insert_quote created_at d db with
          | Except.error _ => (db, Resp.exn)
          | Except.ok db2 => (db2, Resp.ok 201)).2 = some e at h
        cases hins : insert_quote created_at d db with
        | error e2 => rw [hins] at h; cases h
        | ok db2 => rw [hins] at h; cases h

/-- Witness for the amended C8. -/
theorem C8_error_codes_witness : "invalid_json" ∈ allowedErrs :=
  C8_error_codes none "t" initDB "invalid_json" rfl

/-- C8 counterexample: a request whose body is not valid JSON is answered
with the error code invalid_json, which lies outside the vocabulary the
claim enumerates. -/
theorem C8_counterexample :
    respErr (do_POST none "t" initDB).2 = some "invalid_json" ∧
    "invalid_json" ∉ claimErrs :=
  ⟨rfl, by decide⟩

/-- C10: every value list_options reports for a column is a non-empty
string that occurs as that column's value in at least one stored quote, and
no value is repeated within a column's list. -/
theorem C10_options (db : DB) (n : String) (vs : List String)
    (h : (n, vs) ∈ list_options db) :
    vs.Nodup ∧ ∀ v ∈ vs, v ≠ "" ∧
      ∃ sel, (n, sel) ∈ optionFields ∧ ∃ q ∈ db.quotes, sel q = v := by
  obtain ⟨ent, hent, heq⟩ := List.mem_map.mp h
  have h1 : ent.1 = n := congrArg Prod.fst heq
  have h2 : distinctVals db ent.2 = vs := congrArg Prod.snd heq
  subst h2
  constructor
  · exact List.nodup_dedup _
  · intro v hv
    simp only [distinctVals] at hv
    rw [List.mem_dedup, List.mem_filter] at hv
    obtain ⟨hmem, hne⟩ := hv
    obtain ⟨q, hq, hqv⟩ := List.mem_map.mp hmem
    refine ⟨by simpa using hne, ent.2, ?_, q, hq, hqv⟩
    rw [← h1]
    exact hent

/-- Witness for C10 on a concrete database. -/
theorem C10_options_witness :
    (["A"] : List String).Nodup ∧ ∀ v ∈ (["A"] : List String), v ≠ "" ∧
      ∃ sel, ("engine_category", sel) ∈ optionFields ∧
        ∃ q ∈ dbA.quotes, sel q = v :=
  C10_options dbA "engine_category" ["A"] (by decide)

theorem itemRows_append_some (qid iid : Nat) (xs ys : List Value)
    (rs1 rs2 : List ItemRow) (h1 : itemRows qid iid xs = some rs1)
    (h2 : itemRows qid (iid + xs.length) ys = some rs2) :
    itemRows qid iid (xs ++ ys) = some (rs1 ++ rs2) := by
  rw [itemRows_append qid xs ys iid, h1, h2]
  rfl

theorem do_POST_grouped_ok (payload : Payload) (created_at : String) (db db2 : DB)
    (d : QuoteData) (hin : (payload.lookup "engine_items").isSome)
    (hgr : handleGrouped payload = .ok d)
    (hins : insert_quote created_at d db = .ok db2) :
    do_POST (some payload) created_at db = (db2, Resp.ok 201) := by
  rw [do_POST_some_eq, if_pos hin, hgr]
  show (match insert_quote created_at d db with
    | Except.error _ => (db, Resp.exn)
    | Except.ok db3 => (db3, Resp.ok 201)) = (db2, Resp.ok 201)
  rw [hins]

/-- C7: for a valid grouped submission, the stored quote summary row takes
its name, extra and price columns exclusively from the first item of each
group, while every item of every group is stored as a quote_items row, in
submission order (engine, generator, radiator, control, base, color, and
within each group the submitted order). -/
theorem C7_first_item_wins (p : Payload) (db : DB) (created_at : String)
    (fe fg fr fc fb fcol : ParsedItem) (es gs rs cs bs cols : List ParsedItem)
    (hpe : parse_items "engine_category" (some "engine_model")
      (dictGet p "engine_items") = some (fe :: es))
    (hpg : parse_items "generator_category" (some "generator_power")
      (dictGet p "generator_items") = some (fg :: gs))
    (hpr : parse_items "radiator_type" none
      (dictGet p "radiator_items") = some (fr :: rs))
    (hpc : parse_items "control_system" none
      (dictGet p "control_items") = some (fc :: cs))
    (hpb : parse_items "base_type" none
      (dictGet p "base_items") = some (fb :: bs))
    (hpcol : parse_items "unit_color" none
      (dictGet p "color_items") = some (fcol :: cols))
    (hnn : ∀ i ∈ (fe :: es) ++ (fg :: gs) ++ (fr :: rs) ++ (fc :: cs) ++
      (fb :: bs) ++ (fcol :: cols), i.price.isNan = false) :
    ∃ db2, do_POST (some p) created_at db = (db2, Resp.ok 201) ∧
      (∃ qrow, db2.quotes = db.quotes ++ [qrow] ∧
        qrow.engine_category = fe.name ∧ fe.extra = some qrow.engine_model ∧
        qrow.generator_category = fg.name ∧ fg.extra = some qrow.generator_power ∧
        qrow.radiator_type = fr.name ∧ qrow.control_system = fc.name ∧
        qrow.base_type = fb.name ∧ qrow.unit_color = fcol.name ∧
        qrow.price_engine_combo = fe.price ∧ qrow.price_generator_combo = fg.price ∧
        qrow.price_radiator = fr.price ∧ qrow.price_control = fc.price ∧
        qrow.price_base = fb.price ∧ qrow.price_color = fcol.price) ∧
      db2.quote_items.map itemKey = db.quote_items.map itemKey ++
        ((fe :: es).map (fun i => ("engine", i.name, i.extra, i.price)) ++
         (fg :: gs).map (fun i => ("generator", i.name, i.extra, i.price)) ++
         (fr :: rs).map (fun i => ("radiator", i.name, (none : Option String), i.price)) ++
         (fc :: cs).map (fun i => ("control", i.name, (none : Option String), i.price)) ++
         (fb :: bs).map (fun i => ("base", i.name, (none : Option String), i.price)) ++
         (fcol :: cols).map (fun i => ("color", i.name, (none : Option String), i.price))) := by
  have hlk : (p.lookup "engine_items").isSome := by
    cases hl : p.lookup "engine_items" with
    | some v => rfl
    | none =>
      have hd : dictGet p "engine_items" = Value.null := by simp [dictGet, hl]
      rw [hd] at hpe
      cases hpe
  have hgr : handleGrouped p =
      mkGroupedData (fe :: es) (fg :: gs) (fr :: rs) (fc :: cs) (fb :: bs) (fcol :: cols) := by
    unfold handleGrouped
    rw [hpe, hpg, hpr, hpc, hpb, hpcol]
  simp only [mkGroupedData] at hgr
  have hval := handleGrouped_ok_valid p _ hgr
  have hne : fe.price.isNan = false := hnn fe (by simp)
  have hng : fg.price.isNan = false := hnn fg (by simp)
  have hnr : fr.price.isNan = false := hnn fr (by simp)
  have hnc : fc.price.isNan = false := hnn fc (by simp)
  have hnb : fb.price.isNan = false := hnn fb (by simp)
  have hncol : fcol.price.isNan = false := hnn fcol (by simp)
  obtain ⟨db2, hins⟩ := insert_quote_isOk created_at _ db
    (validOptTextSome_isSome _ hval.2.1)
    (validOptTextSome_isSome _ hval.2.2.2.2.1)
    (by show (fe.price.isNan || fg.price.isNan || fr.price.isNan ||
          fc.price.isNan || fb.price.isNan || fcol.price.isNan) = false
        simp [hne, hng, hnr, hnc, hnb, hncol])
    (by intro v hv
        rcases List.mem_append.mp hv with hv | h6
        · rcases List.mem_append.mp hv with hv | h5
          · rcases List.mem_append.mp hv with hv | h4
            · rcases List.mem_append.mp hv with hv | h3
              · rcases List.mem_append.mp hv with h1 | h2
                · obtain ⟨i, hi, rfl⟩ := List.mem_map.mp h1
                  exact encodeItem_insertable _ _ _ (hnn i (by simp only [List.mem_append]; tauto))
                · obtain ⟨i, hi, rfl⟩ := List.mem_map.mp h2
                  exact encodeItem_insertable _ _ _ (hnn i (by simp only [List.mem_append]; tauto))
              · obtain ⟨i, hi, rfl⟩ := List.mem_map.mp h3
                exact encodeItem_insertable _ _ _ (hnn i (by simp only [List.mem_append]; tauto))
            · obtain ⟨i, hi, rfl⟩ := List.mem_map.mp h4
              exact encodeItem_insertable _ _ _ (hnn i (by simp only [List.mem_append]; tauto))
          · obtain ⟨i, hi, rfl⟩ := List.mem_map.mp h5
            exact encodeItem_insertable _ _ _ (hnn i (by simp only [List.mem_append]; tauto))
        · obtain ⟨i, hi, rfl⟩ := List.mem_map.mp h6
          exact encodeItem_insertable _ _ _ (hnn i (by simp only [List.mem_append]; tauto)))
  obtain ⟨em, gp, irs, hem, hgp, hguard, hirs, hdb2⟩ :=
    insert_quote_ok created_at _ db db2 hins
  subst hdb2
  refine ⟨_, do_POST_grouped_ok p created_at db _ _ hlk hgr hins, ⟨_, rfl, ?_⟩, ?_⟩
  · exact ⟨rfl, hem, rfl, hgp, rfl, rfl, rfl, rfl, rfl, rfl, rfl, rfl, rfl, rfl⟩
  · obtain ⟨r1, h1, m1⟩ := itemRows_encodeGroup db.nextQuoteId "engine" true
      (fe :: es) (fun i hi => hnn i (by simp only [List.mem_append]; tauto)) db.nextItemId
    obtain ⟨r2, h2, m2⟩ := itemRows_encodeGroup db.nextQuoteId "generator" true
      (fg :: gs) (fun i hi => hnn i (by simp only [List.mem_append]; tauto)) (db.nextItemId + (encodeGroup "engine" true (fe :: es)).length)
    have h12 := itemRows_append_some db.nextQuoteId db.nextItemId
      (encodeGroup "engine" true (fe :: es)) (encodeGroup "generator" true (fg :: gs))
      r1 r2 h1 h2
    obtain ⟨r3, h3, m3⟩ := itemRows_encodeGroup db.nextQuoteId "radiator" false
      (fr :: rs) (fun i hi => hnn i (by simp only [List.mem_append]; tauto)) (db.nextItemId + (encodeGroup "engine" true (fe :: es) ++
        encodeGroup "generator" true (fg :: gs)).length)
    have h123 := itemRows_append_some db.nextQuoteId db.nextItemId
      (encodeGroup "engine" true (fe :: es) ++ encodeGroup "generator" true (fg :: gs))
      (encodeGroup "radiator" false (fr :: rs)) (r1 ++ r2) r3 h12 h3
    obtain ⟨r4, h4, m4⟩ := itemRows_encodeGroup db.nextQuoteId "control" false
      (fc :: cs) (fun i hi => hnn i (by simp only [List.mem_append]; tauto)) (db.nextItemId + (encodeGroup "engine" true (fe :: es) ++
        encodeGroup "generator" true (fg :: gs) ++
        encodeGroup "radiator" false (fr :: rs)).length)
    have h1234 := itemRows_append_some db.nextQuoteId db.nextItemId
      (encodeGroup "engine" true (fe :: es) ++ encodeGroup "generator" true (fg :: gs) ++
        encodeGroup "radiator" false (fr :: rs))
      (encodeGroup "control" false (fc :: cs)) (r1 ++ r2 ++ r3) r4 h123 h4
    obtain ⟨r5, h5, m5⟩ := itemRows_encodeGroup db.nextQuoteId "base" false
      (fb :: bs) (fun i hi => hnn i (by simp only [List.mem_append]; tauto)) (db.nextItemId + (encodeGroup "engine" true (fe :: es) ++
        encodeGroup "generator" true (fg :: gs) ++
        encodeGroup "radiator" false (fr :: rs) ++
        encodeGroup "control" false (fc :: cs)).length)
    have h12345 := itemRows_append_some db.nextQuoteId db.nextItemId
      (encodeGroup "engine" true (fe :: es) ++ encodeGroup "generator" true (fg :: gs) ++
        encodeGroup "radiator" false (fr :: rs) ++ encodeGroup "control" false (fc :: cs))
      (encodeGroup "base" false (fb :: bs)) (r1 ++ r2 ++ r3 ++ r4) r5 h1234 h5
    obtain ⟨r6, h6, m6⟩ := itemRows_encodeGroup db.nextQuoteId "color" false
      (fcol :: cols) (fun i hi => hnn i (by simp only [List.mem_append]; tauto)) (db.nextItemId + (encodeGroup "engine" true (fe :: es) ++
        encodeGroup "generator" true (fg :: gs) ++
        encodeGroup "radiator" false (fr :: rs) ++
        encodeGroup "control" false (fc :: cs) ++
        encodeGroup "base" false (fb :: bs)).length)
    have h123456 := itemRows_append_some db.nextQuoteId db.nextItemId
      (encodeGroup "engine" true (fe :: es) ++ encodeGroup "generator" true (fg :: gs) ++
        encodeGroup "radiator" false (fr :: rs) ++ encodeGroup "control" false (fc :: cs) ++
        encodeGroup "base" false (fb :: bs))
      (encodeGroup "color" false (fcol :: cols)) (r1 ++ r2 ++ r3 ++ r4 ++ r5) r6 h12345 h6
    have hR : irs = r1 ++ r2 ++ r3 ++ r4 ++ r5 ++ r6 :=
      (Option.some.inj (h123456.symm.trans hirs)).symm
    rw [hR]
    simp only [List.map_append, m1, m2, m3, m4, m5, m6]
    simp

/-- Witness for C7 at a concrete grouped submission. -/
theorem C7_first_item_wins_witness :
    ∃ db2, do_POST (some groupedP) "t" initDB = (db2, Resp.ok 201) ∧
      (∃ qrow, db2.quotes = initDB.quotes ++ [qrow] ∧
        qrow.engine_category = "EC1" ∧
        (some "EM1" : Option String) = some qrow.engine_model ∧
        qrow.generator_category = "GC" ∧
        (some "GP" : Option String) = some qrow.generator_power ∧
        qrow.radiator_type = "RT" ∧ qrow.control_system = "CS" ∧
        qrow.base_type = "BT" ∧ qrow.unit_color = "UC" ∧
        qrow.price_engine_combo = PyFloat.finite 10 ∧
        qrow.price_generator_combo = PyFloat.finite 5 ∧
        qrow.price_radiator = PyFloat.finite 1 ∧
        qrow.price_control = PyFloat.finite 2 ∧
        qrow.price_base = PyFloat.finite 3 ∧
        qrow.price_color = PyFloat.finite 4) ∧
      db2.quote_items.map itemKey = initDB.quote_items.map itemKey ++
        ([("engine", "EC1", some "EM1", PyFloat.finite 10),
          ("engine", "EC2", some "EM2", PyFloat.finite 20)] ++
         [("generator", "GC", some "GP", PyFloat.finite 5)] ++
         [("radiator", "RT", (none : Option String), PyFloat.finite 1)] ++
         [("control", "CS", (none : Option String), PyFloat.finite 2)] ++
         [("base", "BT", (none : Option String), PyFloat.finite 3)] ++
         [("color", "UC", (none : Option String), PyFloat.finite 4)]) :=
  C7_first_item_wins groupedP initDB "t"
    ⟨"EC1", some "EM1", PyFloat.finite 10⟩ ⟨"GC", some "GP", PyFloat.finite 5⟩
    ⟨"RT", none, PyFloat.finite 1⟩ ⟨"CS", none, PyFloat.finite 2⟩
    ⟨"BT", none, PyFloat.finite 3⟩ ⟨"UC", none, PyFloat.finite 4⟩
    [⟨"EC2", some "EM2", PyFloat.finite 20⟩] [] [] [] [] []
    (by decide) (by decide) (by decide) (by decide) (by decide) (by decide)
    (by decide)
